import Mathlib

/-!
Verification of the driverless perception pipeline (C++ sources) against its
natural-language specification.

The development embeds the two core algorithms and their plumbing:

- blob-to-marker clustering: `identifyCones` in `src/detection.cpp`,
- greedy boundary tracing: `connectCones` in `src/track.cpp`,
- the persisted detection record writer/reader: `saveConeDetectionToJson` and
  `loadConeDetectionFromJson` in `src/pipeline.cpp`,
- the configuration loader/saver: `PipelineParams::loadFromFile` and
  `PipelineParams::saveToFile` in `include/params.hpp`.

Conventions of the embedding:

- C++ `int` is modelled as `ℤ`; C++ integer division (truncation toward zero)
  is `Int.tdiv`.  C++ `double`/`float` configuration values are modelled as
  exact rationals `ℚ` (the decimal literals of the source, taken exactly).
- The OpenCV contour/moment extraction that produces raw blobs is external to
  the repository; the clustering model therefore takes the list of raw blobs
  (bounding box plus centroid, in contour order) as input and models the area
  filter, the sort and the merge loop of `identifyCones` exactly.
- `std::sort` with a strict comparator returns some permutation sorted for
  that comparator, unspecified on ties; the model uses a stable insertion
  sort with the same comparator, which realises one valid `std::sort`
  outcome.  All concrete inputs used in theorems below order strictly, so the
  modelled outcome is the unique sorted permutation there.
- The cost `cv::norm(a - b) + |a.y - b.y| * 3.5` of the tracer mixes a square
  root with a rational term.  To keep the model executable, comparisons of
  such costs are decided over `ℤ` (clearing the square root by squaring
  twice); lemmas `ltCost_iff_real` and `tooFar_iff_real` prove the integer
  decision procedures equivalent to the real-number comparisons.
- Fallible code returns `Option`: `connectCones` returns `none` exactly when
  the C++ would dereference `remainingCones.front()` on an empty vector.
-/

/-! ## Geometry: `cv::Point`, `cv::Rect`, `Cone` (detection.hpp) -/

/-- `cv::Point`: integer 2D point. -/
structure Point where
  x : ℤ
  y : ℤ
deriving DecidableEq

/-- `cv::Rect`: integer axis-aligned rectangle given by corner and size. -/
structure Rect where
  x : ℤ
  y : ℤ
  width : ℤ
  height : ℤ
deriving DecidableEq

/-- `Cone` from `detection.hpp`: bounding box plus centre.  Raw blobs and
merged markers both use this shape, as in the C++. -/
structure Cone where
  boundingBox : Rect
  center : Point
deriving DecidableEq

/-- `cv::Rect::area()`: width times height. -/
def Rect.area (r : Rect) : ℤ := r.width * r.height

/-- `cv::Rect::empty()`: nonpositive width or height. -/
def Rect.isEmpty (r : Rect) : Bool := decide (r.width ≤ 0) || decide (r.height ≤ 0)

/-- `cv::Rect` union `a | b`: if one side is empty the other is returned,
otherwise the smallest rectangle containing both (min corner, max far
corner), as implemented by OpenCV's `Rect_::operator|=`. -/
def rectUnion (a b : Rect) : Rect :=
  if a.isEmpty then b
  else if b.isEmpty then a
  else
    let x := min a.x b.x
    let y := min a.y b.y
    { x := x, y := y,
      width := max (a.x + a.width) (b.x + b.width) - x,
      height := max (a.y + a.height) (b.y + b.height) - y }

/-! ## Clustering: `identifyCones` (detection.cpp lines 36-105)

The function, after the external contour extraction, does three things:
filter candidate parts by bounding-box area (`area < 20 || area > maxArea`
is discarded; the lower bound `20` is hardcoded in `detection.cpp` even
though `detection.hpp` declares a `minArea` parameter), sort the survivors
by centroid `y` ascending, and run the merge loop. -/

/-- The merge test of the loop body: centroids within `hThreshold`
horizontally and `vThreshold` vertically (both strict, as in the C++). -/
def coneMatch (hThreshold vThreshold : ℤ) (part cone : Cone) : Bool :=
  decide (|part.center.x - cone.center.x| < hThreshold) &&
    decide (|part.center.y - cone.center.y| < vThreshold)

/-- The merge assignment of the loop body: bounding boxes are united and each
centroid coordinate becomes the C++ integer mean `(a + b) / 2` of the two
centroids (truncating division). -/
def mergeCone (cone part : Cone) : Cone :=
  { boundingBox := rectUnion cone.boundingBox part.boundingBox,
    center := { x := Int.tdiv (cone.center.x + part.center.x) 2,
                y := Int.tdiv (cone.center.y + part.center.y) 2 } }

/-- The inner loop of `identifyCones` over the accepted markers: every marker
whose centroid matches `part` is merged with it in place (the C++ loop has no
`break`, so the scan continues past a match), and the flag records whether
any match happened. -/
def scanMerge (hT vT : ℤ) (part : Cone) : List Cone → List Cone × Bool
  | [] => ([], false)
  | c :: rest =>
    let tail := scanMerge hT vT part rest
    if coneMatch hT vT part c then (mergeCone c part :: tail.1, true)
    else (c :: tail.1, tail.2)

/-- One iteration of the outer merge loop: scan the accepted markers; if no
marker matched, the part is appended as a new marker. -/
def mergeStep (hT vT : ℤ) (cones : List Cone) (part : Cone) : List Cone :=
  let s := scanMerge hT vT part cones
  if s.2 then s.1 else cones ++ [part]

/-- Stable insertion of `a` into `l` with strict comparator `lt`: `a` goes
before the first element it compares strictly less than. -/
def insertByLt {α : Type} (lt : α → α → Bool) (a : α) : List α → List α
  | [] => [a]
  | b :: bs => if lt a b then a :: b :: bs else b :: insertByLt lt a bs

/-- Stable insertion sort with strict comparator `lt`: a sorted permutation
of the input, hence one valid outcome of `std::sort` with comparator `lt`. -/
def sortByLt {α : Type} (lt : α → α → Bool) : List α → List α
  | [] => []
  | a :: as => insertByLt lt a (sortByLt lt as)

/-- The sort comparator of `identifyCones`: centroid `y` ascending. -/
def partLess (a b : Cone) : Bool := decide (a.center.y < b.center.y)

/-- The area pre-filter of `identifyCones`: a part is kept when its
bounding-box area is neither below the hardcoded `20` nor above `maxArea`
(`detection.cpp` line 49). -/
def areaKeep (maxArea : ℤ) (p : Cone) : Bool :=
  !(decide (p.boundingBox.area < 20) || decide (maxArea < p.boundingBox.area))

/-- `identifyCones` of `detection.cpp` (drawing calls omitted): area filter
with hardcoded lower bound 20, sort by centroid `y` ascending, then the merge
loop.  `parts` is the list of raw blobs produced by the external contour and
moment extraction, in contour order. -/
def identifyCones (parts : List Cone) (vThreshold hThreshold maxArea : ℤ) : List Cone :=
  let detectedParts := (parts.filter (areaKeep maxArea)).foldr (insertByLt partLess) []
  detectedParts.foldl (mergeStep hThreshold vThreshold) []

/-- The inner scan as the specification claims it: merge into the first
matching marker only and stop scanning (a `break` after the merge).  Used to
compare the claimed first-match policy with the code's merge-into-all scan. -/
def scanMergeFirst (hT vT : ℤ) (part : Cone) : List Cone → List Cone × Bool
  | [] => ([], false)
  | c :: rest =>
    if coneMatch hT vT part c then (mergeCone c part :: rest, true)
    else
      let tail := scanMergeFirst hT vT part rest
      (c :: tail.1, tail.2)

/-- `identifyCones` as the specification describes the merge rule (merge
into the first matching accepted marker and into no other).  Modelled from
the spec for comparison with the code's behaviour. -/
def identifyConesFirstMatch (parts : List Cone) (vThreshold hThreshold maxArea : ℤ) :
    List Cone :=
  let detectedParts := (parts.filter (areaKeep maxArea)).foldr (insertByLt partLess) []
  detectedParts.foldl
    (fun cones part =>
      let s := scanMergeFirst hThreshold vThreshold part cones
      if s.2 then s.1 else cones ++ [part]) []

/-- Modelled from the spec and from `detection.hpp` line 15: the declared
clustering contract takes `minArea` as a parameter and its pre-filter
discards exactly the blobs with bounding-box area outside
`[minArea, maxArea]`.  The definition of `identifyCones` in `detection.cpp`
lacks this parameter (its lower bound is the hardcoded 20), so the declared
six-parameter function called by `pipeline.cpp` has no definition under
`src/`; this models it faithfully to the header and the spec contract. -/
def identifyConesDeclared (parts : List Cone) (vThreshold hThreshold maxArea minArea : ℤ) :
    List Cone :=
  let detectedParts :=
    (parts.filter (fun p =>
      !(decide (p.boundingBox.area < minArea) || decide (maxArea < p.boundingBox.area)))).foldr
      (insertByLt partLess) []
  detectedParts.foldl (mergeStep hThreshold vThreshold) []

/-! ## Supporting lemmas for the clustering claims -/

/-- The inner scan updates every matching accepted marker (a map over the
list) and reports whether any matched: the loop in `detection.cpp` lines
78-92 tests each `cones[i]` against the part and, lacking a `break`, keeps
scanning after a merge. -/
lemma scanMerge_eq (hT vT : ℤ) (part : Cone) (cones : List Cone) :
    scanMerge hT vT part cones =
      (cones.map (fun c => if coneMatch hT vT part c then mergeCone c part else c),
        cones.any (coneMatch hT vT part)) := by
  induction cones with
  | nil => rfl
  | cons c rest ih =>
    simp only [scanMerge, ih, List.map_cons, List.any_cons]
    by_cases h : coneMatch hT vT part c
    · simp [h]
    · simp [h]

/-- The C++ truncating mean `(a + b) / 2` is the arithmetic mean up to a
rounding error of at most one half, stated over the doubled values. -/
lemma abs_two_mul_tdiv_two_sub (s : ℤ) : |2 * Int.tdiv s 2 - s| ≤ 1 := by
  rcases le_or_lt 0 s with hs | hs
  · have h1 := Int.tdiv_add_tmod s 2
    have h2 := Int.tmod_lt_of_pos s (show (0:ℤ) < 2 by norm_num)
    have h3 := Int.tmod_nonneg 2 hs
    rw [abs_le]
    omega
  · have h1 := Int.tdiv_add_tmod (-s) 2
    have h2 := Int.tmod_lt_of_pos (-s) (show (0:ℤ) < 2 by norm_num)
    have h3 := Int.tmod_nonneg 2 (show (0:ℤ) ≤ -s by omega)
    have h4 : Int.tdiv s 2 = -Int.tdiv (-s) 2 := by rw [← Int.neg_tdiv, neg_neg]
    rw [abs_le]
    omega

/-- `outer` contains the whole extent of `inner`. -/
def containsRect (outer inner : Rect) : Prop :=
  outer.x ≤ inner.x ∧ outer.y ≤ inner.y ∧
    inner.x + inner.width ≤ outer.x + outer.width ∧
    inner.y + inner.height ≤ outer.y + outer.height

/-! ## Claim C1: merge policy of the clustering loop -/

/-- C1 (counterexample): the claim that a blob is merged into the *first*
matching accepted marker and into no other fails on the code.  With blobs at
centroids (0,0), (10,1), (5,2) and both thresholds 6, the blob at (5,2)
matches both accepted markers, and the code (whose scan has no `break`)
merges it into both: the second marker ends at centroid (7,1), whereas the
claimed first-match policy would leave it at (10,1). -/
theorem identifyCones_not_first_match :
    (identifyCones [⟨⟨0, 0, 5, 5⟩, ⟨0, 0⟩⟩, ⟨⟨10, 0, 5, 5⟩, ⟨10, 1⟩⟩, ⟨⟨5, 0, 5, 5⟩, ⟨5, 2⟩⟩]
        6 6 1000 ≠
      identifyConesFirstMatch
        [⟨⟨0, 0, 5, 5⟩, ⟨0, 0⟩⟩, ⟨⟨10, 0, 5, 5⟩, ⟨10, 1⟩⟩, ⟨⟨5, 0, 5, 5⟩, ⟨5, 2⟩⟩] 6 6 1000) ∧
    (identifyCones [⟨⟨0, 0, 5, 5⟩, ⟨0, 0⟩⟩, ⟨⟨10, 0, 5, 5⟩, ⟨10, 1⟩⟩, ⟨⟨5, 0, 5, 5⟩, ⟨5, 2⟩⟩]
        6 6 1000).map (fun c => (c.center.x, c.center.y)) = [(2, 1), (7, 1)] ∧
    (identifyConesFirstMatch
        [⟨⟨0, 0, 5, 5⟩, ⟨0, 0⟩⟩, ⟨⟨10, 0, 5, 5⟩, ⟨10, 1⟩⟩, ⟨⟨5, 0, 5, 5⟩, ⟨5, 2⟩⟩]
        6 6 1000).map (fun c => (c.center.x, c.center.y)) = [(2, 1), (10, 1)] := by
  refine ⟨by decide, by decide, by decide⟩

/-- C1 (amended): after area filtering and sorting by centroid Y ascending,
each blob is merged into *every* already-accepted marker whose centroid is
within `hThreshold` horizontally and `vThreshold` vertically (each matching
marker is updated in place, the scan does not stop at the first match); a
blob becomes a new marker exactly when no accepted marker matches it. -/
theorem identifyCones_merge_policy (parts : List Cone) (vT hT maxArea : ℤ) :
    identifyCones parts vT hT maxArea =
      ((parts.filter (areaKeep maxArea)).foldr (insertByLt partLess) []).foldl
        (fun cones part =>
          if cones.any (coneMatch hT vT part) then
            cones.map (fun c => if coneMatch hT vT part c then mergeCone c part else c)
          else cones ++ [part]) [] := by
  have hfun : mergeStep hT vT = fun cones part =>
      if cones.any (coneMatch hT vT part) then
        cones.map (fun c => if coneMatch hT vT part c then mergeCone c part else c)
      else cones ++ [part] := by
    funext cones part
    simp only [mergeStep, scanMerge_eq]
  simp only [identifyCones, hfun]

/-! ## Claim C4: the area pre-filter and the `minArea` parameter -/

/-- C4 (code bug): `detection.hpp` line 15 declares `identifyCones` with a
`minArea` parameter (default 20) and `pipeline.cpp` passes the configured
`minBoundingBoxArea`, but the definition in `detection.cpp` lacks the
parameter and hardcodes the lower bound 20.  A blob with bounding-box area
25 is kept by the code even when the caller's `minArea` is 30, while the
declared contract discards it; the hardcoded bound does discard area 5. -/
theorem identifyCones_minArea_hardcoded :
    identifyCones [⟨⟨0, 0, 5, 5⟩, ⟨0, 0⟩⟩] 20 10 1000 = [⟨⟨0, 0, 5, 5⟩, ⟨0, 0⟩⟩] ∧
    identifyConesDeclared [⟨⟨0, 0, 5, 5⟩, ⟨0, 0⟩⟩] 20 10 1000 30 = [] ∧
    identifyCones [⟨⟨0, 0, 1, 5⟩, ⟨0, 0⟩⟩] 20 10 1000 = [] := by
  refine ⟨by decide, by decide, by decide⟩

/-! ## Claim C5: merge arithmetic -/

/-- C5 (counterexample): the merged centroid is not the exact arithmetic
mean of the two centroids.  Blobs with centroids (0,0) and (1,1) (areas in
range, thresholds 5) merge into a single marker with centroid (0,0) by the
C++ integer division, but the arithmetic mean of the centroids would satisfy
`2 * c = 0 + 1`, which (0,0) does not. -/
theorem identifyCones_centroid_not_exact_mean :
    (identifyCones [⟨⟨0, 0, 5, 5⟩, ⟨0, 0⟩⟩, ⟨⟨1, 0, 5, 5⟩, ⟨1, 1⟩⟩] 5 5 1000).map
        (fun c => (c.center.x, c.center.y)) = [(0, 0)] ∧
    ¬(2 * (0 : ℤ) = 0 + 1) := by
  refine ⟨by decide, by decide⟩

/-- C5 (amended): when a blob is merged into a marker, the marker's new
bounding box is the union of the two boxes (for nonempty boxes: the least
rectangle containing both) and its new centroid is the componentwise C++
truncating integer mean `(a + b) / 2` of the two centroids — the arithmetic
mean up to the rounding forced by integer coordinates — taken pairwise
against the already-averaged centroid, not as a weighted average of all
original constituent points: three mutually merging blobs with centroid x
values 0, 10, 20 produce the centroid x value 12 = ((0 + 10)/2 + 20)/2,
not the constituent mean 10. -/
theorem identifyCones_merge_semantics (a b : Rect) (cone part : Cone)
    (ha : a.isEmpty = false) (hb : b.isEmpty = false) :
    (containsRect (rectUnion a b) a ∧ containsRect (rectUnion a b) b ∧
      ∀ r, containsRect r a → containsRect r b → containsRect r (rectUnion a b)) ∧
    (mergeCone cone part).boundingBox = rectUnion cone.boundingBox part.boundingBox ∧
    (mergeCone cone part).center.x = Int.tdiv (cone.center.x + part.center.x) 2 ∧
    (mergeCone cone part).center.y = Int.tdiv (cone.center.y + part.center.y) 2 ∧
    |2 * (mergeCone cone part).center.x - (cone.center.x + part.center.x)| ≤ 1 ∧
    |2 * (mergeCone cone part).center.y - (cone.center.y + part.center.y)| ≤ 1 ∧
    (identifyCones [⟨⟨0, 0, 5, 5⟩, ⟨0, 0⟩⟩, ⟨⟨10, 0, 5, 5⟩, ⟨10, 1⟩⟩,
        ⟨⟨20, 0, 5, 5⟩, ⟨20, 2⟩⟩] 5 16 1000).map (fun c => (c.center.x, c.center.y)) =
      [(12, 1)] := by
  refine ⟨⟨?_, ?_, ?_⟩, rfl, rfl, rfl, abs_two_mul_tdiv_two_sub _, abs_two_mul_tdiv_two_sub _,
    by decide⟩
  · simp only [rectUnion, ha, hb, Bool.false_eq_true, if_false, containsRect]
    omega
  · simp only [rectUnion, ha, hb, Bool.false_eq_true, if_false, containsRect]
    omega
  · intro r hra hrb
    simp only [containsRect] at hra hrb
    simp only [rectUnion, ha, hb, Bool.false_eq_true, if_false, containsRect]
    omega

/-- C5 witness: the amended merge-semantics theorem applied at concrete
nonempty rectangles and concrete cones. -/
theorem identifyCones_merge_semantics_witness :
    (containsRect (rectUnion ⟨0, 0, 4, 4⟩ ⟨2, 2, 4, 4⟩) ⟨0, 0, 4, 4⟩ ∧
      containsRect (rectUnion ⟨0, 0, 4, 4⟩ ⟨2, 2, 4, 4⟩) ⟨2, 2, 4, 4⟩ ∧
      ∀ r, containsRect r ⟨0, 0, 4, 4⟩ → containsRect r ⟨2, 2, 4, 4⟩ →
        containsRect r (rectUnion ⟨0, 0, 4, 4⟩ ⟨2, 2, 4, 4⟩)) ∧
    (mergeCone ⟨⟨0, 0, 4, 4⟩, ⟨1, 1⟩⟩ ⟨⟨2, 2, 4, 4⟩, ⟨4, 2⟩⟩).boundingBox =
      rectUnion ⟨0, 0, 4, 4⟩ ⟨2, 2, 4, 4⟩ ∧
    (mergeCone ⟨⟨0, 0, 4, 4⟩, ⟨1, 1⟩⟩ ⟨⟨2, 2, 4, 4⟩, ⟨4, 2⟩⟩).center.x = Int.tdiv (1 + 4) 2 ∧
    (mergeCone ⟨⟨0, 0, 4, 4⟩, ⟨1, 1⟩⟩ ⟨⟨2, 2, 4, 4⟩, ⟨4, 2⟩⟩).center.y = Int.tdiv (1 + 2) 2 ∧
    |2 * (mergeCone ⟨⟨0, 0, 4, 4⟩, ⟨1, 1⟩⟩ ⟨⟨2, 2, 4, 4⟩, ⟨4, 2⟩⟩).center.x - (1 + 4)| ≤ 1 ∧
    |2 * (mergeCone ⟨⟨0, 0, 4, 4⟩, ⟨1, 1⟩⟩ ⟨⟨2, 2, 4, 4⟩, ⟨4, 2⟩⟩).center.y - (1 + 2)| ≤ 1 ∧
    (identifyCones [⟨⟨0, 0, 5, 5⟩, ⟨0, 0⟩⟩, ⟨⟨10, 0, 5, 5⟩, ⟨10, 1⟩⟩,
        ⟨⟨20, 0, 5, 5⟩, ⟨20, 2⟩⟩] 5 16 1000).map (fun c => (c.center.x, c.center.y)) =
      [(12, 1)] :=
  identifyCones_merge_semantics ⟨0, 0, 4, 4⟩ ⟨2, 2, 4, 4⟩ ⟨⟨0, 0, 4, 4⟩, ⟨1, 1⟩⟩
    ⟨⟨2, 2, 4, 4⟩, ⟨4, 2⟩⟩ (by decide) (by decide)

/-! ## Boundary tracing: `connectCones` (track.cpp lines 4-65)

The tracer sorts a copy of the marker list bottom-first (largest centroid
`y`, ties broken toward the horizontal image centre), takes its front as the
start (the C++ performs `remainingCones.front()` with no emptiness check),
then repeatedly links the remaining marker of least cost
`cv::norm(c - prev) + |c.y - prev.y| * 3.5` until the least cost exceeds
`maxDistance`.  The penalty factor `3.5` is the local constant
`VERTICAL_PENALTY_FACTOR` of `track.cpp`; costs are compared through integer
decision procedures proved equivalent to the real comparisons below. -/

/-- Squared euclidean distance of two points, the square of `cv::norm`. -/
def sqDist (a b : Point) : ℤ := (a.x - b.x) * (a.x - b.x) + (a.y - b.y) * (a.y - b.y)

/-- Absolute vertical distance of two points. -/
def vertDist (a b : Point) : ℤ := |a.y - b.y|

/-- Decides `√s₁ + (7/2)·w₁ < √s₂ + (7/2)·w₂` for integers `s₁, s₂ ≥ 0`:
the comparison the tracer's `std::min_element` comparator performs on costs
`√(sqDist) + vertDist · 3.5`, cleared of the square roots by squaring twice
(`ltCost_iff_real` below proves the equivalence). -/
def ltCost (s₁ w₁ s₂ w₂ : ℤ) : Bool :=
  let D := 7 * (w₂ - w₁)
  if 0 ≤ D then
    let A := 4 * (s₁ - s₂) - D * D
    if A < 0 then true else decide (A * A < 16 * (D * D) * s₂)
  else
    let R := 4 * (s₂ - s₁) - D * D
    if R ≤ 0 then false else decide (16 * (D * D) * s₁ < R * R)

/-- The tracer's comparator on candidate markers relative to `prev`:
does `a` have strictly smaller cost than `b`? -/
def costLt (prev : Point) (a b : Cone) : Bool :=
  ltCost (sqDist a.center prev) (vertDist a.center prev)
    (sqDist b.center prev) (vertDist b.center prev)

/-- Decides `maxD < √s + (7/2)·w` for `s ≥ 0`: the cutoff test
`distance > maxDistance` of `track.cpp` line 43 (`tooFar_iff_real` below
proves the equivalence). -/
def tooFar (s w maxD : ℤ) : Bool :=
  !(decide (0 ≤ 2 * maxD - 7 * w) &&
    decide (4 * s ≤ (2 * maxD - 7 * w) * (2 * maxD - 7 * w)))

/-- `std::min_element` over `c :: rest` with the cost comparator: the first
element no later element compares strictly below. -/
def pickMin (prev : Point) (c : Cone) (rest : List Cone) : Cone :=
  rest.foldl (fun best x => if costLt prev x best then x else best) c

/-- The linking loop of `connectCones` (track.cpp lines 28-59): select the
least-cost remaining marker, stop if its cost exceeds `maxDistance`,
otherwise append it, make its centre the new reference point and erase it
from the working set.  `fuel` bounds the iteration count so the recursion is
structural; `traceLoop_fuel_stable` shows any fuel of at least the working
set's length gives the same result, which is the loop's termination
argument (the working set shrinks by one per iteration). -/
def traceLoop (fuel : ℕ) (maxD : ℤ) (prev : Point) (remaining : List Cone) : List Cone :=
  match fuel, remaining with
  | _, [] => []
  | 0, _ :: _ => []
  | fuel + 1, c :: rest =>
    let sel := pickMin prev c rest
    if tooFar (sqDist sel.center prev) (vertDist sel.center prev) maxD then []
    else sel :: traceLoop fuel maxD sel.center ((c :: rest).erase sel)

/-- The sort comparator of `connectCones`: larger centroid `y` first, ties
broken by smaller horizontal distance to the image centre `cols / 2`. -/
def coneLess (imageCols : ℤ) (a b : Cone) : Bool :=
  decide (b.center.y < a.center.y) ||
    (decide (a.center.y = b.center.y) &&
      decide (|a.center.x - Int.tdiv imageCols 2| < |b.center.x - Int.tdiv imageCols 2|))

/-- `connectCones` of `track.cpp` (drawing calls omitted; the returned list
is the `trackEdgeCones` assigned back to the caller's vector).  The C++
takes `remainingCones.front()` without an emptiness check, so the empty
input is modelled as `none`; note the start marker is still in the working
set on the first iteration and links to itself at cost 0. -/
def connectCones (imageCols : ℤ) (cones : List Cone) (maxDistance : ℤ) : Option (List Cone) :=
  let remainingCones := sortByLt (coneLess imageCols) cones
  match remainingCones with
  | [] => none
  | first :: _ =>
    some (traceLoop remainingCones.length maxDistance first.center remainingCones)

/-! ## The integer cost comparisons agree with the real costs

The tracer compares `cv::norm(p - prev) + |p.y - prev.y| * 3.5` values.  The
following lemmas show the integer decision procedures `ltCost` and `tooFar`
decide exactly the corresponding real-number comparisons
`√s + 7·w/2 < √s' + 7·w'/2` and `maxD < √s + 7·w/2`. -/

/-- For `a, b ≥ 0`, the comparison `a < b + d` is equivalent to polynomial
conditions in `a², b², d²` obtained by squaring twice; this is the shape the
integer procedure `ltCost` tests after clearing denominators. -/

lemma lt_add_iff_squared_conds (a b d : ℝ) (ha : 0 ≤ a) (hb : 0 ≤ b) :
    a < b + d ↔
      (if 0 ≤ d then
        a ^ 2 - b ^ 2 - d ^ 2 < 0 ∨
          (0 ≤ a ^ 2 - b ^ 2 - d ^ 2 ∧ (a ^ 2 - b ^ 2 - d ^ 2) ^ 2 < 4 * d ^ 2 * b ^ 2)
      else
        0 < b ^ 2 - a ^ 2 - d ^ 2 ∧ 4 * d ^ 2 * a ^ 2 < (b ^ 2 - a ^ 2 - d ^ 2) ^ 2) := by
  split_ifs with hd
  · constructor
    · intro h
      rcases lt_or_le (a ^ 2 - b ^ 2 - d ^ 2) 0 with hL | hL
      · exact Or.inl hL
      · refine Or.inr ⟨hL, ?_⟩
        have hsq : a ^ 2 < (b + d) ^ 2 := pow_lt_pow_left h ha two_ne_zero
        have hlt : a ^ 2 - b ^ 2 - d ^ 2 < 2 * d * b := by nlinarith
        have h2 := pow_lt_pow_left hlt hL two_ne_zero
        calc (a ^ 2 - b ^ 2 - d ^ 2) ^ 2 < (2 * d * b) ^ 2 := h2
          _ = 4 * d ^ 2 * b ^ 2 := by ring
    · rintro (hL | ⟨hL, hsq⟩)
      · have h2 : a ^ 2 < (b + d) ^ 2 := by nlinarith [mul_nonneg hd hb]
        exact lt_of_pow_lt_pow_left 2 (by positivity) h2
      · have h1 : (a ^ 2 - b ^ 2 - d ^ 2) ^ 2 < (2 * d * b) ^ 2 := by nlinarith
        have h2 : a ^ 2 - b ^ 2 - d ^ 2 < 2 * d * b :=
          lt_of_pow_lt_pow_left 2 (by positivity) h1
        have h3 : a ^ 2 < (b + d) ^ 2 := by nlinarith
        exact lt_of_pow_lt_pow_left 2 (by positivity) h3
  · push_neg at hd
    have hnd : 0 ≤ -d := by linarith
    have hand : 0 ≤ a * (-d) := mul_nonneg ha hnd
    constructor
    · intro h
      have haδ : 0 ≤ a - d := by linarith
      have hb' : a - d < b := by linarith
      have hsq : (a - d) ^ 2 < b ^ 2 := pow_lt_pow_left hb' haδ two_ne_zero
      have hRP : 0 < b ^ 2 - a ^ 2 - d ^ 2 := by nlinarith
      refine ⟨hRP, ?_⟩
      have h3 : -(2 * d) * a < b ^ 2 - a ^ 2 - d ^ 2 := by nlinarith
      have h0 : 0 ≤ -(2 * d) * a := by nlinarith
      have h4 := pow_lt_pow_left h3 h0 two_ne_zero
      calc 4 * d ^ 2 * a ^ 2 = (-(2 * d) * a) ^ 2 := by ring
        _ < (b ^ 2 - a ^ 2 - d ^ 2) ^ 2 := h4
    · rintro ⟨hRP, hsq⟩
      have h4 : (-(2 * d) * a) ^ 2 < (b ^ 2 - a ^ 2 - d ^ 2) ^ 2 := by
        calc (-(2 * d) * a) ^ 2 = 4 * d ^ 2 * a ^ 2 := by ring
          _ < (b ^ 2 - a ^ 2 - d ^ 2) ^ 2 := hsq
      have h3 : -(2 * d) * a < b ^ 2 - a ^ 2 - d ^ 2 :=
        lt_of_pow_lt_pow_left 2 (le_of_lt hRP) h4
      have hsq2 : (a - d) ^ 2 < b ^ 2 := by nlinarith
      have h5 : a - d < b := lt_of_pow_lt_pow_left 2 hb hsq2
      linarith


/-- `ltCost` decides the real cost comparison: for squared distances
`s₁, s₂ ≥ 0` and vertical distances `w₁, w₂`, it returns `true` exactly when
`√s₁ + 3.5·w₁ < √s₂ + 3.5·w₂`. -/

lemma ltCost_iff_real (s₁ w₁ s₂ w₂ : ℤ) (h₁ : 0 ≤ s₁) (h₂ : 0 ≤ s₂) :
    ltCost s₁ w₁ s₂ w₂ = true ↔
      Real.sqrt s₁ + 7 * w₁ / 2 < Real.sqrt s₂ + 7 * w₂ / 2 := by
  have ha : (0:ℝ) ≤ Real.sqrt s₁ := Real.sqrt_nonneg _
  have hb : (0:ℝ) ≤ Real.sqrt s₂ := Real.sqrt_nonneg _
  have ha2 : Real.sqrt s₁ ^ 2 = (s₁ : ℝ) := Real.sq_sqrt (by exact_mod_cast h₁)
  have hb2 : Real.sqrt s₂ ^ 2 = (s₂ : ℝ) := Real.sq_sqrt (by exact_mod_cast h₂)
  have hmain := lt_add_iff_squared_conds (Real.sqrt s₁) (Real.sqrt s₂)
    ((7 * (w₂ : ℝ) - 7 * w₁) / 2) ha hb
  rw [ha2, hb2] at hmain
  have hgoal : (Real.sqrt s₁ + 7 * w₁ / 2 < Real.sqrt s₂ + 7 * w₂ / 2) ↔
      Real.sqrt s₁ < Real.sqrt s₂ + (7 * (w₂ : ℝ) - 7 * w₁) / 2 := by
    constructor <;> intro <;> linarith
  rw [hgoal, hmain, ltCost]
  dsimp only
  by_cases hD : (0:ℤ) ≤ 7 * (w₂ - w₁)
  · have hdr : (0:ℝ) ≤ (7 * (w₂ : ℝ) - 7 * w₁) / 2 := by
      have : (0:ℝ) ≤ ((7 * (w₂ - w₁) : ℤ) : ℝ) := by exact_mod_cast hD
      push_cast at this
      linarith
    rw [if_pos hD, if_pos hdr]
    have hLeq : (s₁ : ℝ) - (s₂ : ℝ) - ((7 * (w₂ : ℝ) - 7 * w₁) / 2) ^ 2 =
        ((4 * (s₁ - s₂) - 7 * (w₂ - w₁) * (7 * (w₂ - w₁)) : ℤ) : ℝ) / 4 := by
      push_cast
      ring
    by_cases hA : 4 * (s₁ - s₂) - 7 * (w₂ - w₁) * (7 * (w₂ - w₁)) < 0
    · rw [if_pos hA]
      have hAr : ((4 * (s₁ - s₂) - 7 * (w₂ - w₁) * (7 * (w₂ - w₁)) : ℤ) : ℝ) < 0 := by
        exact_mod_cast hA
      simp only [true_iff]
      left
      rw [hLeq]
      linarith
    · rw [if_neg hA]
      have hAr : (0:ℝ) ≤ ((4 * (s₁ - s₂) - 7 * (w₂ - w₁) * (7 * (w₂ - w₁)) : ℤ) : ℝ) := by
        exact_mod_cast not_lt.mp hA
      rw [decide_eq_true_iff]
      constructor
      · intro h
        have hr : ((4 * (s₁ - s₂) - 7 * (w₂ - w₁) * (7 * (w₂ - w₁)) : ℤ) : ℝ) *
            ((4 * (s₁ - s₂) - 7 * (w₂ - w₁) * (7 * (w₂ - w₁)) : ℤ) : ℝ) <
            ((16 * (7 * (w₂ - w₁) * (7 * (w₂ - w₁))) * s₂ : ℤ) : ℝ) := by exact_mod_cast h
        refine Or.inr ⟨by rw [hLeq]; linarith, ?_⟩
        rw [hLeq]
        have hexp : ((16 * (7 * (w₂ - w₁) * (7 * (w₂ - w₁))) * s₂ : ℤ) : ℝ) =
            16 * (4 * ((7 * (w₂ : ℝ) - 7 * w₁) / 2) ^ 2 * (s₂ : ℝ)) := by
          push_cast
          ring
        rw [hexp] at hr
        nlinarith
      · rintro (hL | ⟨hL, hsq⟩)
        · rw [hLeq] at hL
          linarith
        · rw [hLeq] at hsq
          have hr : ((4 * (s₁ - s₂) - 7 * (w₂ - w₁) * (7 * (w₂ - w₁)) : ℤ) : ℝ) *
              ((4 * (s₁ - s₂) - 7 * (w₂ - w₁) * (7 * (w₂ - w₁)) : ℤ) : ℝ) <
              ((16 * (7 * (w₂ - w₁) * (7 * (w₂ - w₁))) * s₂ : ℤ) : ℝ) := by
            have hexp : ((16 * (7 * (w₂ - w₁) * (7 * (w₂ - w₁))) * s₂ : ℤ) : ℝ) =
                16 * (4 * ((7 * (w₂ : ℝ) - 7 * w₁) / 2) ^ 2 * (s₂ : ℝ)) := by
              push_cast
              ring
            rw [hexp]
            nlinarith
          exact_mod_cast hr
  · have hdr : ¬ (0:ℝ) ≤ (7 * (w₂ : ℝ) - 7 * w₁) / 2 := by
      intro hcon
      apply hD
      have : (0:ℝ) ≤ ((7 * (w₂ - w₁) : ℤ) : ℝ) := by
        push_cast
        linarith
      exact_mod_cast this
    rw [if_neg hD, if_neg hdr]
    have hReq : (s₂ : ℝ) - (s₁ : ℝ) - ((7 * (w₂ : ℝ) - 7 * w₁) / 2) ^ 2 =
        ((4 * (s₂ - s₁) - 7 * (w₂ - w₁) * (7 * (w₂ - w₁)) : ℤ) : ℝ) / 4 := by
      push_cast
      ring
    by_cases hR : 4 * (s₂ - s₁) - 7 * (w₂ - w₁) * (7 * (w₂ - w₁)) ≤ 0
    · rw [if_pos hR]
      have hRr : ((4 * (s₂ - s₁) - 7 * (w₂ - w₁) * (7 * (w₂ - w₁)) : ℤ) : ℝ) ≤ 0 := by
        exact_mod_cast hR
      simp only [Bool.false_eq_true, false_iff, not_and]
      intro hcon
      rw [hReq] at hcon
      linarith
    · rw [if_neg hR]
      have hRr : (0:ℝ) < ((4 * (s₂ - s₁) - 7 * (w₂ - w₁) * (7 * (w₂ - w₁)) : ℤ) : ℝ) := by
        exact_mod_cast not_le.mp hR
      rw [decide_eq_true_iff]
      have hexp : ((16 * (7 * (w₂ - w₁) * (7 * (w₂ - w₁))) * s₁ : ℤ) : ℝ) =
          16 * (4 * ((7 * (w₂ : ℝ) - 7 * w₁) / 2) ^ 2 * (s₁ : ℝ)) := by
        push_cast
        ring
      constructor
      · intro h
        have hr : ((16 * (7 * (w₂ - w₁) * (7 * (w₂ - w₁))) * s₁ : ℤ) : ℝ) <
            ((4 * (s₂ - s₁) - 7 * (w₂ - w₁) * (7 * (w₂ - w₁)) : ℤ) : ℝ) *
            ((4 * (s₂ - s₁) - 7 * (w₂ - w₁) * (7 * (w₂ - w₁)) : ℤ) : ℝ) := by exact_mod_cast h
        rw [hexp] at hr
        refine ⟨by rw [hReq]; linarith, ?_⟩
        rw [hReq]
        nlinarith
      · rintro ⟨hP, hsq⟩
        rw [hReq] at hP hsq
        have hr : ((16 * (7 * (w₂ - w₁) * (7 * (w₂ - w₁))) * s₁ : ℤ) : ℝ) <
            ((4 * (s₂ - s₁) - 7 * (w₂ - w₁) * (7 * (w₂ - w₁)) : ℤ) : ℝ) *
            ((4 * (s₂ - s₁) - 7 * (w₂ - w₁) * (7 * (w₂ - w₁)) : ℤ) : ℝ) := by
          rw [hexp]
          nlinarith
        exact_mod_cast hr


/-- `tooFar` decides the real cutoff comparison `maxDistance < √s + 3.5·w`
of `track.cpp` line 43. -/

lemma tooFar_iff_real (s w maxD : ℤ) (hs : 0 ≤ s) :
    tooFar s w maxD = true ↔ (maxD : ℝ) < Real.sqrt s + 7 * w / 2 := by
  have hsr : (0:ℝ) ≤ (s:ℝ) := by exact_mod_cast hs
  have key : (Real.sqrt s ≤ (maxD : ℝ) - 7 * w / 2) ↔
      (0 ≤ 2 * maxD - 7 * w ∧ 4 * s ≤ (2 * maxD - 7 * w) * (2 * maxD - 7 * w)) := by
    constructor
    · intro h
      have h0 : (0:ℝ) ≤ (maxD : ℝ) - 7 * w / 2 := le_trans (Real.sqrt_nonneg _) h
      have h1 : (0:ℤ) ≤ 2 * maxD - 7 * w := by
        have : (0:ℝ) ≤ 2 * (maxD:ℝ) - 7 * w := by linarith
        exact_mod_cast this
      refine ⟨h1, ?_⟩
      have h2 : (s:ℝ) ≤ ((maxD : ℝ) - 7 * w / 2) ^ 2 := (Real.sqrt_le_left h0).mp h
      have : (4 * s : ℝ) ≤ ((2 * maxD - 7 * w : ℤ) : ℝ) * ((2 * maxD - 7 * w : ℤ) : ℝ) := by
        push_cast
        nlinarith
      exact_mod_cast this
    · rintro ⟨h1, h2⟩
      have h0 : (0:ℝ) ≤ (maxD : ℝ) - 7 * w / 2 := by
        have : (0:ℝ) ≤ 2 * (maxD:ℝ) - 7 * w := by exact_mod_cast h1
        linarith
      rw [Real.sqrt_le_left h0]
      have h2' : (4 * s : ℝ) ≤ ((2 * maxD - 7 * w : ℤ) : ℝ) * ((2 * maxD - 7 * w : ℤ) : ℝ) := by
        exact_mod_cast h2
      push_cast at h2'
      nlinarith
  rw [show ((maxD:ℝ) < Real.sqrt s + 7 * w / 2) ↔
      ¬(Real.sqrt s ≤ (maxD : ℝ) - 7 * w / 2) by
    rw [not_le]
    constructor <;> intro <;> linarith]
  rw [key, tooFar]
  simp
  omega

/-! ## Structural lemmas for the tracing loop -/

/-- Inserting with a strict comparator yields a permutation of consing. -/
lemma insertByLt_perm {α : Type} (lt : α → α → Bool) (a : α) (l : List α) :
    (insertByLt lt a l).Perm (a :: l) := by
  induction l with
  | nil => exact List.Perm.refl _
  | cons b bs ih =>
    simp only [insertByLt]
    split_ifs
    · exact List.Perm.refl _
    · exact ((ih.cons b).trans (List.Perm.swap a b bs))

lemma sortByLt_perm {α : Type} (lt : α → α → Bool) (l : List α) :
    (sortByLt lt l).Perm l := by
  induction l with
  | nil => exact List.Perm.refl _
  | cons a as ih =>
    exact (insertByLt_perm lt a (sortByLt lt as)).trans (ih.cons a)

lemma pickMin_eq_or_mem (prev : Point) (c : Cone) (rest : List Cone) :
    pickMin prev c rest = c ∨ pickMin prev c rest ∈ rest := by
  induction rest generalizing c with
  | nil => exact Or.inl rfl
  | cons x xs ih =>
    have hstep : pickMin prev c (x :: xs) =
        pickMin prev (if costLt prev x c then x else c) xs := rfl
    rcases ih (if costLt prev x c then x else c) with h | h
    · rw [hstep, h]
      split_ifs
      · exact Or.inr (List.mem_cons_self _ _)
      · exact Or.inl rfl
    · exact Or.inr (List.mem_cons_of_mem _ (hstep ▸ h))

lemma pickMin_mem (prev : Point) (c : Cone) (rest : List Cone) :
    pickMin prev c rest ∈ c :: rest := by
  rcases pickMin_eq_or_mem prev c rest with h | h
  · rw [h]
    exact List.mem_cons_self _ _
  · exact List.mem_cons_of_mem _ h

lemma erase_pickMin_length (prev : Point) (c : Cone) (rest : List Cone) :
    ((c :: rest).erase (pickMin prev c rest)).length = rest.length := by
  have h := List.length_erase (pickMin prev c rest) (c :: rest)
  rw [if_pos (pickMin_mem prev c rest)] at h
  simp only [List.length_cons] at h
  omega

lemma traceLoop_length_le (fuel : ℕ) (maxD : ℤ) (prev : Point) (remaining : List Cone) :
    (traceLoop fuel maxD prev remaining).length ≤ remaining.length := by
  induction fuel generalizing prev remaining with
  | zero => cases remaining <;> simp [traceLoop]
  | succ f ih =>
    cases remaining with
    | nil => simp [traceLoop]
    | cons c rest =>
      rw [traceLoop]
      split_ifs
      · simp
      · have h1 := ih (pickMin prev c rest).center ((c :: rest).erase (pickMin prev c rest))
        have h2 := erase_pickMin_length prev c rest
        simp only [List.length_cons]
        omega

lemma traceLoop_count_le (fuel : ℕ) (maxD : ℤ) (prev : Point) (remaining : List Cone)
    (m : Cone) : (traceLoop fuel maxD prev remaining).count m ≤ remaining.count m := by
  induction fuel generalizing prev remaining with
  | zero => cases remaining <;> simp [traceLoop]
  | succ f ih =>
    cases remaining with
    | nil => simp [traceLoop]
    | cons c rest =>
      rw [traceLoop]
      split_ifs
      · simp
      · rw [List.count_cons]
        have h1 := ih (pickMin prev c rest).center ((c :: rest).erase (pickMin prev c rest))
        have h2 := List.count_erase m (pickMin prev c rest) (c :: rest)
        have h3 := pickMin_mem prev c rest
        by_cases he : pickMin prev c rest = m
        · have h4 : 1 ≤ (c :: rest).count m := List.count_pos_iff_mem.mpr (he ▸ h3)
          have hbeq : ((pickMin prev c rest) == m) = true := beq_iff_eq.mpr he
          simp only [hbeq] at h2 ⊢
          norm_num at h2 ⊢
          omega
        · have hbeq : ((pickMin prev c rest) == m) = false := beq_eq_false_iff_ne.mpr he
          simp only [hbeq] at h2 ⊢
          norm_num at h2 ⊢
          omega

lemma traceLoop_fuel_stable (fuel : ℕ) (maxD : ℤ) (prev : Point) (remaining : List Cone)
    (h : remaining.length ≤ fuel) :
    traceLoop fuel maxD prev remaining = traceLoop remaining.length maxD prev remaining := by
  induction fuel generalizing prev remaining with
  | zero =>
    have : remaining = [] := List.length_eq_zero.mp (Nat.le_zero.mp h)
    subst this
    rfl
  | succ f ih =>
    cases remaining with
    | nil => rfl
    | cons c rest =>
      simp only [List.length_cons]
      rw [traceLoop]
      conv_rhs => rw [traceLoop]
      split_ifs
      · rfl
      · have h2 := erase_pickMin_length prev c rest
        have hle : ((c :: rest).erase (pickMin prev c rest)).length ≤ f := by
          simp only [List.length_cons] at h
          omega
        rw [ih _ _ hle, h2]

/-! ## The real cost of the tracer and its relation to the integer tests -/

/-- Squared distances are nonnegative. -/
lemma sqDist_nonneg (a b : Point) : 0 ≤ sqDist a b :=
  add_nonneg (mul_self_nonneg _) (mul_self_nonneg _)

noncomputable def realCost (vpf : ℚ) (prev p : Point) : ℝ :=
  Real.sqrt ((sqDist p prev : ℤ) : ℝ) + |(p.y : ℝ) - (prev.y : ℝ)| * (vpf : ℝ)

lemma realCost_eq (prev p : Point) :
    realCost (7/2) prev p =
      Real.sqrt ((sqDist p prev : ℤ) : ℝ) + 7 * ((vertDist p prev : ℤ) : ℝ) / 2 := by
  rw [realCost, vertDist]
  push_cast
  ring

lemma costLt_iff_realCost (prev : Point) (a b : Cone) :
    costLt prev a b = true ↔
      realCost (7/2) prev a.center < realCost (7/2) prev b.center := by
  rw [costLt, ltCost_iff_real _ _ _ _ (sqDist_nonneg _ _) (sqDist_nonneg _ _),
    realCost_eq, realCost_eq]

lemma tooFar_iff_realCost (prev : Point) (c : Cone) (maxD : ℤ) :
    tooFar (sqDist c.center prev) (vertDist c.center prev) maxD = true ↔
      (maxD : ℝ) < realCost (7/2) prev c.center := by
  rw [tooFar_iff_real _ _ _ (sqDist_nonneg _ _), realCost_eq]

lemma pickMin_realCost_min (prev : Point) (c : Cone) (rest : List Cone) :
    ∀ x ∈ c :: rest,
      realCost (7/2) prev (pickMin prev c rest).center ≤ realCost (7/2) prev x.center := by
  induction rest generalizing c with
  | nil =>
    intro x hx
    rw [List.mem_singleton] at hx
    rw [hx]
    exact le_refl _
  | cons y ys ih =>
    intro x hx
    have hstep : pickMin prev c (y :: ys) =
        pickMin prev (if costLt prev y c then y else c) ys := rfl
    rw [hstep]
    have hsel := ih (if costLt prev y c then y else c)
      (if costLt prev y c then y else c) (List.mem_cons_self _ _)
    rcases List.mem_cons.mp hx with hxc | hx2
    · rw [hxc]
      by_cases hcl : costLt prev y c = true
      · have hyc := (costLt_iff_realCost prev y c).mp hcl
        rw [if_pos hcl] at hsel ⊢
        exact le_trans hsel (le_of_lt hyc)
      · rw [if_neg hcl] at hsel ⊢
        exact hsel
    · rcases List.mem_cons.mp hx2 with hxy | hx3
      · rw [hxy]
        by_cases hcl : costLt prev y c = true
        · rw [if_pos hcl] at hsel ⊢
          exact hsel
        · have hnot : ¬ (realCost (7/2) prev y.center < realCost (7/2) prev c.center) := by
            rw [← costLt_iff_realCost prev y c]
            exact hcl
          rw [if_neg hcl] at hsel ⊢
          exact le_trans hsel (not_lt.mp hnot)
      · exact ih (if costLt prev y c then y else c) x (List.mem_cons_of_mem _ hx3)

/-! ## Claims C2, C6, C7, C3: the boundary tracer -/

/-- C2 (code bug): for an empty input marker sequence the claim says
`connectCones` returns an empty path and never accesses a first marker that
does not exist; the C++ (track.cpp line 16) unconditionally evaluates
`remainingCones.front()`, which on an empty vector is undefined behaviour.
The model therefore yields `none` on empty input rather than `some []`. -/
theorem connectCones_empty_front_unsafe (imageCols maxDistance : ℤ) :
    connectCones imageCols [] maxDistance = none := rfl

/-- C6 (counterexample): for the empty marker set the tracer returns no
path at all (the C++ dereferences the front of an empty vector), so the
claim quantified over every finite input fails at the empty input. -/
theorem connectCones_empty_counterexample : connectCones 0 [] 150 = none := rfl

/-- C6 (amended): for every finite *nonempty* input marker set the tracer
terminates: it returns a path of length at most the input length, any fuel
bound of at least the input length yields the same result (the loop ends on
its own within that many iterations), and each non-stopping iteration
removes exactly one marker from the working set. -/
theorem connectCones_terminates (imageCols maxDistance : ℤ) (cones : List Cone)
    (h : cones ≠ []) :
    (∃ path, connectCones imageCols cones maxDistance = some path ∧
      path.length ≤ cones.length ∧
      ∀ fuel, cones.length ≤ fuel → ∀ first rest,
        sortByLt (coneLess imageCols) cones = first :: rest →
        traceLoop fuel maxDistance first.center (first :: rest) = path) ∧
    (∀ prev c rest, ((c :: rest).erase (pickMin prev c rest)).length = rest.length) := by
  refine ⟨?_, fun prev c rest => erase_pickMin_length prev c rest⟩
  have hperm := sortByLt_perm (coneLess imageCols) cones
  cases hs : sortByLt (coneLess imageCols) cones with
  | nil =>
    rw [hs] at hperm
    exact absurd hperm.symm.eq_nil h
  | cons first rest =>
    rw [hs] at hperm
    have hlen : (first :: rest).length = cones.length := hperm.length_eq
    refine ⟨traceLoop (first :: rest).length maxDistance first.center (first :: rest),
      ?_, ?_, ?_⟩
    · simp only [connectCones, hs]
    · exact le_trans (traceLoop_length_le _ _ _ _) (le_of_eq hlen)
    · intro fuel hfuel first' rest' hs'
      obtain ⟨rfl, rfl⟩ := List.cons_eq_cons.mp hs'
      exact traceLoop_fuel_stable fuel maxDistance first.center (first :: rest)
        (hlen ▸ hfuel)

/-- C6 witness: the termination theorem applied to the one-marker input. -/
theorem connectCones_terminates_witness :
    (∃ path, connectCones 0 [⟨⟨0, 0, 5, 5⟩, ⟨3, 4⟩⟩] 150 = some path ∧
      path.length ≤ ([⟨⟨0, 0, 5, 5⟩, ⟨3, 4⟩⟩] : List Cone).length ∧
      ∀ fuel, ([⟨⟨0, 0, 5, 5⟩, ⟨3, 4⟩⟩] : List Cone).length ≤ fuel → ∀ first rest,
        sortByLt (coneLess 0) [⟨⟨0, 0, 5, 5⟩, ⟨3, 4⟩⟩] = first :: rest →
        traceLoop fuel 150 first.center (first :: rest) = path) ∧
    (∀ prev c rest, ((c :: rest).erase (pickMin prev c rest)).length = rest.length) :=
  connectCones_terminates 0 150 [⟨⟨0, 0, 5, 5⟩, ⟨3, 4⟩⟩] (List.cons_ne_nil _ _)

/-- C7 (confirmed): the path returned by the tracer contains every input
marker at most as often as the input does; in particular a duplicate-free
input yields a duplicate-free path, so no marker instance appears twice. -/
theorem connectCones_no_repeat (imageCols maxDistance : ℤ) (cones path : List Cone)
    (h : connectCones imageCols cones maxDistance = some path) :
    (∀ m, path.count m ≤ cones.count m) ∧ (cones.Nodup → path.Nodup) := by
  have hperm := sortByLt_perm (coneLess imageCols) cones
  cases hs : sortByLt (coneLess imageCols) cones with
  | nil =>
    simp only [connectCones, hs] at h
    exact Option.noConfusion h
  | cons first rest =>
    simp only [connectCones, hs] at h
    obtain rfl := Option.some.inj h
    rw [hs] at hperm
    constructor
    · intro m
      exact le_trans (traceLoop_count_le _ _ _ _ m) (le_of_eq (hperm.count_eq m))
    · intro hnd
      rw [List.nodup_iff_count_le_one] at hnd ⊢
      intro a
      exact le_trans (le_trans (traceLoop_count_le _ _ _ _ a)
        (le_of_eq (hperm.count_eq a))) (hnd a)

/-- C7 witness: the no-repeat theorem applied to a one-marker input, whose
traced path is the input itself. -/
theorem connectCones_no_repeat_witness :
    (∀ m, ([⟨⟨0, 0, 5, 5⟩, ⟨3, 4⟩⟩] : List Cone).count m ≤
      ([⟨⟨0, 0, 5, 5⟩, ⟨3, 4⟩⟩] : List Cone).count m) ∧
    (([⟨⟨0, 0, 5, 5⟩, ⟨3, 4⟩⟩] : List Cone).Nodup →
      ([⟨⟨0, 0, 5, 5⟩, ⟨3, 4⟩⟩] : List Cone).Nodup) :=
  connectCones_no_repeat 0 150 [⟨⟨0, 0, 5, 5⟩, ⟨3, 4⟩⟩] [⟨⟨0, 0, 5, 5⟩, ⟨3, 4⟩⟩] (by decide)

/-- C3 (code bug): in every iteration the selected candidate minimises
`euclideanDistance + |Δy| · f`, and if that minimum exceeds `maxDistance`
the loop stops — but with `f` the constant 3.5 hardcoded in `track.cpp`
line 26, not a value the caller passes: `track.hpp` line 7 declares a
`verticalPenaltyFactor` parameter and `pipeline.cpp` passes the configured
factor, while the definition in `track.cpp` lacks the parameter.  With
markers S=(100,100), A=(200,100), B=(100,60) and a caller-passed factor of
0, the minimum-cost candidate after S would be B (cost 40 versus 100), yet
the code links A, the 3.5-penalised minimum (cost 100 versus 180).  The
claim's concrete cutoff instance does hold: two markers 500 apart in
post-penalty cost with `maxDistance = 150` yield the start marker alone. -/
theorem connectCones_penalty_hardcoded :
    (∀ prev c rest, ∀ x ∈ c :: rest,
      realCost (7/2) prev (pickMin prev c rest).center ≤ realCost (7/2) prev x.center) ∧
    (∀ maxD : ℤ, ∀ fuel prev c rest,
      (maxD : ℝ) < realCost (7/2) prev (pickMin prev c rest).center →
      traceLoop (fuel + 1) maxD prev (c :: rest) = []) ∧
    connectCones 200 [⟨⟨0, 0, 5, 5⟩, ⟨100, 100⟩⟩, ⟨⟨0, 0, 5, 5⟩, ⟨200, 100⟩⟩,
      ⟨⟨0, 0, 5, 5⟩, ⟨100, 60⟩⟩] 150 =
      some [⟨⟨0, 0, 5, 5⟩, ⟨100, 100⟩⟩, ⟨⟨0, 0, 5, 5⟩, ⟨200, 100⟩⟩] ∧
    realCost 0 ⟨100, 100⟩ ⟨100, 60⟩ < realCost 0 ⟨100, 100⟩ ⟨200, 100⟩ ∧
    realCost (7/2) ⟨100, 100⟩ ⟨200, 100⟩ < realCost (7/2) ⟨100, 100⟩ ⟨100, 60⟩ ∧
    connectCones 0 [⟨⟨0, 0, 5, 5⟩, ⟨0, 100⟩⟩, ⟨⟨0, 0, 5, 5⟩, ⟨500, 100⟩⟩] 150 =
      some [⟨⟨0, 0, 5, 5⟩, ⟨0, 100⟩⟩] := by
  refine ⟨pickMin_realCost_min, ?_, by decide, ?_, ?_, by decide⟩
  · intro maxD fuel prev c rest hgt
    have hfar : tooFar (sqDist (pickMin prev c rest).center prev)
        (vertDist (pickMin prev c rest).center prev) maxD = true :=
      (tooFar_iff_realCost prev (pickMin prev c rest) maxD).mpr hgt
    simp only [traceLoop, hfar, if_true]
  · rw [realCost, realCost]
    norm_num [sqDist]
  · rw [realCost, realCost]
    norm_num [sqDist]
    rw [show ((1600:ℝ)) = 40 ^ 2 by norm_num, Real.sqrt_sq (by norm_num : (0:ℝ) ≤ 40),
      show ((10000:ℝ)) = 100 ^ 2 by norm_num, Real.sqrt_sq (by norm_num : (0:ℝ) ≤ 100)]
    norm_num

/-- C3 witness: the minimising-selection conjunct applied to candidate A
among {A, B} seen from S, and the cutoff conjunct applied to the marker 500
units from the reference point with `maxDistance = 150`. -/
theorem connectCones_penalty_hardcoded_witness :
    realCost (7/2) ⟨100, 100⟩
        (pickMin ⟨100, 100⟩ ⟨⟨0, 0, 5, 5⟩, ⟨200, 100⟩⟩ [⟨⟨0, 0, 5, 5⟩, ⟨100, 60⟩⟩]).center ≤
      realCost (7/2) ⟨100, 100⟩ (⟨⟨0, 0, 5, 5⟩, ⟨200, 100⟩⟩ : Cone).center ∧
    traceLoop (0 + 1) 150 ⟨0, 100⟩ [⟨⟨0, 0, 5, 5⟩, ⟨500, 100⟩⟩] = [] :=
  ⟨connectCones_penalty_hardcoded.1 ⟨100, 100⟩ ⟨⟨0, 0, 5, 5⟩, ⟨200, 100⟩⟩
      [⟨⟨0, 0, 5, 5⟩, ⟨100, 60⟩⟩] ⟨⟨0, 0, 5, 5⟩, ⟨200, 100⟩⟩ (List.mem_cons_self _ _),
    connectCones_penalty_hardcoded.2.1 150 0 ⟨0, 100⟩ ⟨⟨0, 0, 5, 5⟩, ⟨500, 100⟩⟩ []
      (by
        rw [show (pickMin ⟨0, 100⟩ ⟨⟨0, 0, 5, 5⟩, ⟨500, 100⟩⟩ [] : Cone) =
            ⟨⟨0, 0, 5, 5⟩, ⟨500, 100⟩⟩ from rfl, realCost]
        norm_num [sqDist]
        rw [show ((250000:ℝ)) = 500 ^ 2 by norm_num,
          Real.sqrt_sq (by norm_num : (0:ℝ) ≤ 500)]
        norm_num)⟩

/-! ## Configuration: `PipelineParams` (include/params.hpp)

The parameter tree with its compiled-in defaults, the JSON loader
`loadFromFile` (params.hpp lines 87-227) and the saver `saveToFile`
(lines 230-286).  C++ `double`/`float` fields are exact rationals.  The
external `nlohmann::json` text layer (json.hpp is not part of this
repository) round-trips JSON values exactly, so the file is modelled at the
JSON-value level: `saveToFile` produces a `JVal` tree and `loadFromFile`
consumes one; a missing or unreadable file and a file whose top-level parse
throws are the other two loader inputs. -/

/-- `cv::Scalar`: four double components (constructed from three values the
fourth is zero). -/
structure Scalar4 where
  v0 : ℚ
  v1 : ℚ
  v2 : ℚ
  v3 : ℚ
deriving DecidableEq

/-- `ColorDetectionParams` with its member-initialiser defaults. -/
structure ColorDetectionParams where
  erosionIterations : ℤ := 1
  dilationIterations : ℤ := 2
  morphKernelSize : ℤ := 2
deriving DecidableEq

/-- `ConeColorParams` with its member-initialiser defaults
(`keepClosestN = -1` means no limit). -/
structure ConeColorParams where
  maxBoundingBoxArea : ℤ := 4000
  verticalMergeThreshold : ℤ := 20
  horizontalMergeThreshold : ℤ := 10
  keepClosestN : ℤ := -1
deriving DecidableEq

/-- `ConeDetectionParams`: global thresholds plus per-colour overrides. -/
structure ConeDetectionParams where
  minBoundingBoxArea : ℤ := 20
  maxBoundingBoxArea : ℤ := 4000
  verticalMergeThreshold : ℤ := 20
  horizontalMergeThreshold : ℤ := 10
  orange : ConeColorParams := {}
  blue : ConeColorParams := {}
  yellow : ConeColorParams := {}
deriving DecidableEq

/-- `RoadMaskParams`: HSV bounds, defaults `(0,0,0)` and `(179,70,190)`. -/
structure RoadMaskParams where
  hsvLower : Scalar4 := ⟨0, 0, 0, 0⟩
  hsvUpper : Scalar4 := ⟨179, 70, 190, 0⟩
deriving DecidableEq

/-- `TrackDrawingParams`: defaults 150 and 3.5. -/
structure TrackDrawingParams where
  maxConeDistance : ℤ := 150
  verticalPenaltyFactor : ℚ := 7/2
deriving DecidableEq

/-- `CameraIntrinsics` with the source's decimal literals taken exactly. -/
structure CameraIntrinsics where
  fx : ℚ := 3873502807617188 / 10000000000000
  fy : ℚ := 3873502807617188 / 10000000000000
  cx : ℚ := 3177719116210938 / 10000000000000
  cy : ℚ := 2424875946044922 / 10000000000000
deriving DecidableEq

/-- `OdometryParams` with its defaults. -/
structure OdometryParams where
  cameraIntrinsics : CameraIntrinsics := {}
  ransacConfidence : ℚ := 999/1000
  ransacThreshold : ℚ := 1
  matchDistanceMultiplier : ℚ := 2
  matchDistanceMinimum : ℚ := 30
deriving DecidableEq

/-- `PipelineParams`: the main configuration structure
(`version = "1.0"`, `description` empty by default). -/
structure PipelineParams where
  version : String := "1.0"
  description : String := ""
  colorDetection : ColorDetectionParams := {}
  coneDetection : ConeDetectionParams := {}
  roadMask : RoadMaskParams := {}
  trackDrawing : TrackDrawingParams := {}
  odometry : OdometryParams := {}
deriving DecidableEq

/-- The compiled-in defaults: a default-constructed `PipelineParams`. -/
def defaultPipelineParams : PipelineParams := {}

/-- A JSON value, as held by `nlohmann::json`. -/
inductive JVal where
  | num (q : ℚ)
  | str (s : String)
  | arr (elems : List JVal)
  | obj (fields : List (String × JVal))

/-- `json::contains`: true only on objects holding the key. -/
def JVal.containsKey : JVal → String → Bool
  | .obj fs, k => fs.any (fun f => f.1 == k)
  | _, _ => false

/-- `json::operator[]` on a const object (only evaluated under a successful
`contains` in the code paths modelled here). -/
def JVal.get : JVal → String → JVal
  | .obj fs, k => ((fs.find? (fun f => f.1 == k)).map Prod.snd).getD (.obj [])
  | _, _ => .obj []

/-- Array indexing `j[i]` (only evaluated under a successful
`is_array() && size() == 3` test). -/
def JVal.at : JVal → ℕ → JVal
  | .arr xs, i => xs.getD i (.obj [])
  | _, _ => .obj []

/-- `j.is_array() && j.size() == 3`. -/
def JVal.isArr3 : JVal → Bool
  | .arr xs => xs.length == 3
  | _ => false

/-- C-style truncation of a double toward zero, as in `(int)x` and
nlohmann's numeric `get<int>()`. -/
def ratTrunc (q : ℚ) : ℤ := Int.tdiv q.num (q.den : ℤ)

/-- `get<int>()`: numeric values convert (truncating), any other type
throws `type_error`. -/
def JVal.getInt : JVal → Except Unit ℤ
  | .num q => .ok (ratTrunc q)
  | _ => .error ()

/-- `get<double>()` (and `get<float>()`): numeric values convert, any other
type throws `type_error`. -/
def JVal.getRat : JVal → Except Unit ℚ
  | .num q => .ok q
  | _ => .error ()

/-- One guarded integer field assignment
`if (x.contains(k)) field = x[k];`: on conversion failure the exception
carries the parameters as they stand (the field is left unchanged). -/
def setIntField (guard : Bool) (v : JVal) (set : PipelineParams → ℤ → PipelineParams)
    (p : PipelineParams) : Except PipelineParams PipelineParams :=
  if guard then
    match v.getInt with
    | .ok n => .ok (set p n)
    | .error _ => .error p
  else .ok p

/-- One guarded floating-point field assignment. -/
def setRatField (guard : Bool) (v : JVal) (set : PipelineParams → ℚ → PipelineParams)
    (p : PipelineParams) : Except PipelineParams PipelineParams :=
  if guard then
    match v.getRat with
    | .ok q => .ok (set p q)
    | .error _ => .error p
  else .ok p

/-- One guarded `cv::Scalar` assignment from a three-element array: the
three `get<int>()` conversions all happen before the assignment, so a throw
leaves the scalar unchanged; the constructed scalar's fourth component is
zero. -/
def setScalarField (guard : Bool) (v : JVal)
    (set : PipelineParams → Scalar4 → PipelineParams) (p : PipelineParams) :
    Except PipelineParams PipelineParams :=
  if guard then
    match (v.at 0).getInt, (v.at 1).getInt, (v.at 2).getInt with
    | .ok x, .ok y, .ok z => .ok (set p ⟨(x : ℚ), (y : ℚ), (z : ℚ), 0⟩)
    | _, _, _ => .error p
  else .ok p

/-- The assignment sequence of `loadFromFile`'s `try` block, in source
order (params.hpp lines 104-216).  The `Except` error carries the
parameters at the moment the C++ would throw. -/
def parseSteps (j : JVal) (p0 : PipelineParams) : Except PipelineParams PipelineParams := do
  let hasCd := j.containsKey "colorDetection"
  let cd := j.get "colorDetection"
  let p ← setIntField (hasCd && cd.containsKey "erosionIterations")
    (cd.get "erosionIterations") (fun p v => { p with colorDetection.erosionIterations := v }) p0
  let p ← setIntField (hasCd && cd.containsKey "dilationIterations")
    (cd.get "dilationIterations") (fun p v => { p with colorDetection.dilationIterations := v }) p
  let p ← setIntField (hasCd && cd.containsKey "morphKernelSize")
    (cd.get "morphKernelSize") (fun p v => { p with colorDetection.morphKernelSize := v }) p
  let hasCone := j.containsKey "coneDetection"
  let cone := j.get "coneDetection"
  let p ← setIntField (hasCone && cone.containsKey "minBoundingBoxArea")
    (cone.get "minBoundingBoxArea")
    (fun p v => { p with coneDetection.minBoundingBoxArea := v }) p
  let p ← setIntField (hasCone && cone.containsKey "maxBoundingBoxArea")
    (cone.get "maxBoundingBoxArea")
    (fun p v => { p with coneDetection.maxBoundingBoxArea := v }) p
  let p ← setIntField (hasCone && cone.containsKey "verticalMergeThreshold")
    (cone.get "verticalMergeThreshold")
    (fun p v => { p with coneDetection.verticalMergeThreshold := v }) p
  let p ← setIntField (hasCone && cone.containsKey "horizontalMergeThreshold")
    (cone.get "horizontalMergeThreshold")
    (fun p v => { p with coneDetection.horizontalMergeThreshold := v }) p
  let hasOrange := hasCone && cone.containsKey "orange"
  let orange := cone.get "orange"
  let p ← setIntField (hasOrange && orange.containsKey "maxBoundingBoxArea")
    (orange.get "maxBoundingBoxArea")
    (fun p v => { p with coneDetection.orange.maxBoundingBoxArea := v }) p
  let p ← setIntField (hasOrange && orange.containsKey "verticalMergeThreshold")
    (orange.get "verticalMergeThreshold")
    (fun p v => { p with coneDetection.orange.verticalMergeThreshold := v }) p
  let p ← setIntField (hasOrange && orange.containsKey "horizontalMergeThreshold")
    (orange.get "horizontalMergeThreshold")
    (fun p v => { p with coneDetection.orange.horizontalMergeThreshold := v }) p
  let p ← setIntField (hasOrange && orange.containsKey "keepClosestN")
    (orange.get "keepClosestN")
    (fun p v => { p with coneDetection.orange.keepClosestN := v }) p
  let hasBlue := hasCone && cone.containsKey "blue"
  let blue := cone.get "blue"
  let p ← setIntField (hasBlue && blue.containsKey "verticalMergeThreshold")
    (blue.get "verticalMergeThreshold")
    (fun p v => { p with coneDetection.blue.verticalMergeThreshold := v }) p
  let hasYellow := hasCone && cone.containsKey "yellow"
  let yellow := cone.get "yellow"
  let p ← setIntField (hasYellow && yellow.containsKey "verticalMergeThreshold")
    (yellow.get "verticalMergeThreshold")
    (fun p v => { p with coneDetection.yellow.verticalMergeThreshold := v }) p
  let hasRoad := j.containsKey "roadMask"
  let road := j.get "roadMask"
  let p ← setScalarField
    (hasRoad && road.containsKey "hsvLower" && (road.get "hsvLower").isArr3)
    (road.get "hsvLower") (fun p v => { p with roadMask.hsvLower := v }) p
  let p ← setScalarField
    (hasRoad && road.containsKey "hsvUpper" && (road.get "hsvUpper").isArr3)
    (road.get "hsvUpper") (fun p v => { p with roadMask.hsvUpper := v }) p
  let hasTrack := j.containsKey "trackDrawing"
  let track := j.get "trackDrawing"
  let p ← setIntField (hasTrack && track.containsKey "maxConeDistance")
    (track.get "maxConeDistance")
    (fun p v => { p with trackDrawing.maxConeDistance := v }) p
  let p ← setRatField (hasTrack && track.containsKey "verticalPenaltyFactor")
    (track.get "verticalPenaltyFactor")
    (fun p v => { p with trackDrawing.verticalPenaltyFactor := v }) p
  let hasOdom := j.containsKey "odometry"
  let odom := j.get "odometry"
  let hasIntr := hasOdom && odom.containsKey "cameraIntrinsics"
  let intr := odom.get "cameraIntrinsics"
  let p ← setRatField (hasIntr && intr.containsKey "fx") (intr.get "fx")
    (fun p v => { p with odometry.cameraIntrinsics.fx := v }) p
  let p ← setRatField (hasIntr && intr.containsKey "fy") (intr.get "fy")
    (fun p v => { p with odometry.cameraIntrinsics.fy := v }) p
  let p ← setRatField (hasIntr && intr.containsKey "cx") (intr.get "cx")
    (fun p v => { p with odometry.cameraIntrinsics.cx := v }) p
  let p ← setRatField (hasIntr && intr.containsKey "cy") (intr.get "cy")
    (fun p v => { p with odometry.cameraIntrinsics.cy := v }) p
  let p ← setRatField (hasOdom && odom.containsKey "ransacConfidence")
    (odom.get "ransacConfidence") (fun p v => { p with odometry.ransacConfidence := v }) p
  let p ← setRatField (hasOdom && odom.containsKey "ransacThreshold")
    (odom.get "ransacThreshold") (fun p v => { p with odometry.ransacThreshold := v }) p
  let p ← setRatField (hasOdom && odom.containsKey "matchDistanceMultiplier")
    (odom.get "matchDistanceMultiplier")
    (fun p v => { p with odometry.matchDistanceMultiplier := v }) p
  let p ← setRatField (hasOdom && odom.containsKey "matchDistanceMinimum")
    (odom.get "matchDistanceMinimum")
    (fun p v => { p with odometry.matchDistanceMinimum := v }) p
  return p

/-- The loader's three inputs: a missing or unreadable file, a file whose
top-level JSON parse throws, and a successfully parsed JSON value. -/
inductive ConfigFile where
  | missing
  | badSyntax
  | parsed (j : JVal)

/-- `PipelineParams::loadFromFile`: a missing file returns the defaults
before parsing; a top-level parse failure is caught with the defaults still
untouched; a parsed value runs the assignment sequence, and the `catch`
around it returns whatever the parameters held when a conversion threw. -/
def PipelineParams.loadFromFile : ConfigFile → PipelineParams
  | .missing => {}
  | .badSyntax => {}
  | .parsed j =>
    match parseSteps j {} with
    | .ok p => p
    | .error p => p

/-- `PipelineParams::saveToFile` (params.hpp lines 230-286) as the JSON
value it writes: all of `colorDetection`, `coneDetection` (with the full
`orange` block but only `verticalMergeThreshold` for `blue` and `yellow`),
`roadMask` (three components cast to int, truncating), `trackDrawing` and
`odometry`, plus `version` and `description`.  nlohmann stores object keys
sorted, but the loader accesses fields only by key, so field order is
irrelevant to the round trip. -/
def PipelineParams.saveToFile (p : PipelineParams) : JVal :=
  .obj [
    ("version", .str p.version),
    ("description", .str p.description),
    ("colorDetection", .obj [
      ("erosionIterations", .num (p.colorDetection.erosionIterations : ℚ)),
      ("dilationIterations", .num (p.colorDetection.dilationIterations : ℚ)),
      ("morphKernelSize", .num (p.colorDetection.morphKernelSize : ℚ))]),
    ("coneDetection", .obj [
      ("minBoundingBoxArea", .num (p.coneDetection.minBoundingBoxArea : ℚ)),
      ("maxBoundingBoxArea", .num (p.coneDetection.maxBoundingBoxArea : ℚ)),
      ("verticalMergeThreshold", .num (p.coneDetection.verticalMergeThreshold : ℚ)),
      ("horizontalMergeThreshold", .num (p.coneDetection.horizontalMergeThreshold : ℚ)),
      ("orange", .obj [
        ("maxBoundingBoxArea", .num (p.coneDetection.orange.maxBoundingBoxArea : ℚ)),
        ("verticalMergeThreshold", .num (p.coneDetection.orange.verticalMergeThreshold : ℚ)),
        ("horizontalMergeThreshold",
          .num (p.coneDetection.orange.horizontalMergeThreshold : ℚ)),
        ("keepClosestN", .num (p.coneDetection.orange.keepClosestN : ℚ))]),
      ("blue", .obj [
        ("verticalMergeThreshold", .num (p.coneDetection.blue.verticalMergeThreshold : ℚ))]),
      ("yellow", .obj [
        ("verticalMergeThreshold",
          .num (p.coneDetection.yellow.verticalMergeThreshold : ℚ))])]),
    ("roadMask", .obj [
      ("hsvLower", .arr [.num ((ratTrunc p.roadMask.hsvLower.v0 : ℤ) : ℚ),
        .num ((ratTrunc p.roadMask.hsvLower.v1 : ℤ) : ℚ),
        .num ((ratTrunc p.roadMask.hsvLower.v2 : ℤ) : ℚ)]),
      ("hsvUpper", .arr [.num ((ratTrunc p.roadMask.hsvUpper.v0 : ℤ) : ℚ),
        .num ((ratTrunc p.roadMask.hsvUpper.v1 : ℤ) : ℚ),
        .num ((ratTrunc p.roadMask.hsvUpper.v2 : ℤ) : ℚ)])]),
    ("trackDrawing", .obj [
      ("maxConeDistance", .num (p.trackDrawing.maxConeDistance : ℚ)),
      ("verticalPenaltyFactor", .num p.trackDrawing.verticalPenaltyFactor)]),
    ("odometry", .obj [
      ("cameraIntrinsics", .obj [
        ("fx", .num p.odometry.cameraIntrinsics.fx),
        ("fy", .num p.odometry.cameraIntrinsics.fy),
        ("cx", .num p.odometry.cameraIntrinsics.cx),
        ("cy", .num p.odometry.cameraIntrinsics.cy)]),
      ("ransacConfidence", .num p.odometry.ransacConfidence),
      ("ransacThreshold", .num p.odometry.ransacThreshold),
      ("matchDistanceMultiplier", .num p.odometry.matchDistanceMultiplier),
      ("matchDistanceMinimum", .num p.odometry.matchDistanceMinimum)])]

/-- Truncation of a scalar as the save-then-load round trip leaves it: the
first three components pass through the int cast, the fourth resets to 0. -/
def truncScalar (s : Scalar4) : Scalar4 :=
  ⟨((ratTrunc s.v0 : ℤ) : ℚ), ((ratTrunc s.v1 : ℤ) : ℚ), ((ratTrunc s.v2 : ℤ) : ℚ), 0⟩

/-- What the configuration round trip actually preserves: everything except
`version` and `description` (never read back), the non-`verticalMergeThreshold`
fields of the `blue` and `yellow` overrides (never written), and the
road-mask scalars, which are truncated to integers with zeroed fourth
components. -/
def roundTripParams (p : PipelineParams) : PipelineParams :=
  { version := "1.0", description := "",
    colorDetection := p.colorDetection,
    coneDetection := { p.coneDetection with
      blue := { verticalMergeThreshold := p.coneDetection.blue.verticalMergeThreshold },
      yellow := { verticalMergeThreshold := p.coneDetection.yellow.verticalMergeThreshold } },
    roadMask := { hsvLower := truncScalar p.roadMask.hsvLower,
                  hsvUpper := truncScalar p.roadMask.hsvUpper },
    trackDrawing := p.trackDrawing,
    odometry := p.odometry }

/-! ## Claims C9 and C10: configuration loading and the config round trip -/

/-- Converting an integer to `ℚ` and truncating back is the identity; this
is how every integer configuration field survives the JSON round trip. -/
lemma ratTrunc_intCast (n : ℤ) : ratTrunc ((n : ℤ) : ℚ) = n := by
  rw [ratTrunc, Rat.intCast_num, Rat.intCast_den]
  exact Int.tdiv_one n

/-- The literal result of running the loader on a saved tree, before the
`ratTrunc` of integer casts is simplified away: this is what
`loadFromFile (parsed (saveToFile p))` reduces to definitionally. -/
def rawRoundTrip (p : PipelineParams) : PipelineParams :=
  { version := "1.0", description := "",
    colorDetection := {
      erosionIterations := ratTrunc ((p.colorDetection.erosionIterations : ℤ) : ℚ),
      dilationIterations := ratTrunc ((p.colorDetection.dilationIterations : ℤ) : ℚ),
      morphKernelSize := ratTrunc ((p.colorDetection.morphKernelSize : ℤ) : ℚ) },
    coneDetection := {
      minBoundingBoxArea := ratTrunc ((p.coneDetection.minBoundingBoxArea : ℤ) : ℚ),
      maxBoundingBoxArea := ratTrunc ((p.coneDetection.maxBoundingBoxArea : ℤ) : ℚ),
      verticalMergeThreshold := ratTrunc ((p.coneDetection.verticalMergeThreshold : ℤ) : ℚ),
      horizontalMergeThreshold :=
        ratTrunc ((p.coneDetection.horizontalMergeThreshold : ℤ) : ℚ),
      orange := {
        maxBoundingBoxArea := ratTrunc ((p.coneDetection.orange.maxBoundingBoxArea : ℤ) : ℚ),
        verticalMergeThreshold :=
          ratTrunc ((p.coneDetection.orange.verticalMergeThreshold : ℤ) : ℚ),
        horizontalMergeThreshold :=
          ratTrunc ((p.coneDetection.orange.horizontalMergeThreshold : ℤ) : ℚ),
        keepClosestN := ratTrunc ((p.coneDetection.orange.keepClosestN : ℤ) : ℚ) },
      blue := { verticalMergeThreshold := ratTrunc ((p.coneDetection.blue.verticalMergeThreshold : ℤ) : ℚ) },
      yellow := { verticalMergeThreshold := ratTrunc ((p.coneDetection.yellow.verticalMergeThreshold : ℤ) : ℚ) } },
    roadMask := {
      hsvLower := Scalar4.mk ((ratTrunc ((ratTrunc p.roadMask.hsvLower.v0 : ℤ) : ℚ) : ℤ) : ℚ)
        ((ratTrunc ((ratTrunc p.roadMask.hsvLower.v1 : ℤ) : ℚ) : ℤ) : ℚ)
        ((ratTrunc ((ratTrunc p.roadMask.hsvLower.v2 : ℤ) : ℚ) : ℤ) : ℚ) 0,
      hsvUpper := Scalar4.mk ((ratTrunc ((ratTrunc p.roadMask.hsvUpper.v0 : ℤ) : ℚ) : ℤ) : ℚ)
        ((ratTrunc ((ratTrunc p.roadMask.hsvUpper.v1 : ℤ) : ℚ) : ℤ) : ℚ)
        ((ratTrunc ((ratTrunc p.roadMask.hsvUpper.v2 : ℤ) : ℚ) : ℤ) : ℚ) 0 },
    trackDrawing := {
      maxConeDistance := ratTrunc ((p.trackDrawing.maxConeDistance : ℤ) : ℚ),
      verticalPenaltyFactor := p.trackDrawing.verticalPenaltyFactor },
    odometry := {
      cameraIntrinsics := {
        fx := p.odometry.cameraIntrinsics.fx,
        fy := p.odometry.cameraIntrinsics.fy,
        cx := p.odometry.cameraIntrinsics.cx,
        cy := p.odometry.cameraIntrinsics.cy },
      ransacConfidence := p.odometry.ransacConfidence,
      ransacThreshold := p.odometry.ransacThreshold,
      matchDistanceMultiplier := p.odometry.matchDistanceMultiplier,
      matchDistanceMinimum := p.odometry.matchDistanceMinimum } }


set_option maxHeartbeats 1000000 in
/-- C10 (amended): the configuration round trip `loadFromFile ∘ saveToFile`
keeps every field of `p` except: `version` and `description` revert to the
defaults (saved but never read back), the `maxBoundingBoxArea`,
`horizontalMergeThreshold` and `keepClosestN` fields of the `blue` and
`yellow` overrides revert to the defaults (the writer emits only
`verticalMergeThreshold` for them and the reader parses only that key), and
the road-mask HSV scalars are truncated: their first three components pass
through an integer cast and their fourth component resets to 0. -/
theorem loadFromFile_saveToFile_roundTrip (p : PipelineParams) :
    PipelineParams.loadFromFile (.parsed (PipelineParams.saveToFile p)) = roundTripParams p := by
  have h1 : PipelineParams.loadFromFile (.parsed (PipelineParams.saveToFile p)) =
      rawRoundTrip p := rfl
  rw [h1]
  simp only [rawRoundTrip, roundTripParams, truncScalar, ratTrunc_intCast]

/-- C10 (counterexample): the round trip does not preserve every field
outside the claim's exception list.  A parameter value whose road-mask
lower bound has fourth component 5 (and integer first components) comes
back with the scalar `(0,0,0,0)`: the saver writes only three integer-cast
components and the loader rebuilds the scalar with a zero fourth component,
so `roadMask.hsvLower`, a field not in the claim's list, changes. -/
theorem loadFromFile_saveToFile_not_identity :
    (PipelineParams.loadFromFile (.parsed (PipelineParams.saveToFile
      { defaultPipelineParams with
        roadMask := { hsvLower := ⟨0, 0, 0, 5⟩ } }))).roadMask.hsvLower ≠
    ({ defaultPipelineParams with
      roadMask := { hsvLower := ⟨0, 0, 0, 5⟩ } } : PipelineParams).roadMask.hsvLower := by
  intro h
  have hval : (PipelineParams.loadFromFile (.parsed (PipelineParams.saveToFile
      { defaultPipelineParams with
        roadMask := { hsvLower := ⟨0, 0, 0, 5⟩ } }))).roadMask.hsvLower = ⟨0, 0, 0, 0⟩ := rfl
  rw [hval] at h
  have h4 := congrArg Scalar4.v3 h.symm
  norm_num at h4

/-- C9 (code bug): a missing or unreadable file and a file whose top-level
parse throws do return the compiled-in defaults, and the loader never
propagates an exception (the model is a total function); but a file that
parses as JSON and fails on a later typed field conversion returns the
partially updated parameters, not the defaults, although the `catch` block
prints "Using default parameters": with `erosionIterations = 7` followed by
a string-valued `dilationIterations`, the result keeps the 7. -/
theorem loadFromFile_malformed_partial_update :
    PipelineParams.loadFromFile .missing = defaultPipelineParams ∧
    PipelineParams.loadFromFile .badSyntax = defaultPipelineParams ∧
    (PipelineParams.loadFromFile (.parsed (.obj [("colorDetection", .obj
      [("erosionIterations", .num 7), ("dilationIterations", .str "x")])]))).colorDetection =
      ⟨7, 2, 2⟩ ∧
    PipelineParams.loadFromFile (.parsed (.obj [("colorDetection", .obj
      [("erosionIterations", .num 7), ("dilationIterations", .str "x")])])) ≠
      defaultPipelineParams := by
  refine ⟨rfl, rfl, rfl, fun h => ?_⟩
  have h3 : (PipelineParams.loadFromFile (.parsed (.obj [("colorDetection", .obj
      [("erosionIterations", .num 7), ("dilationIterations", .str "x")])]))).colorDetection =
      ⟨7, 2, 2⟩ := rfl
  rw [h] at h3
  exact absurd h3 (by decide)

/-- Strings are modelled as lists of characters. -/
abbrev Chars := List Char

/-! ## Persisted detection record: `saveConeDetectionToJson` and
`loadConeDetectionFromJson` (pipeline.cpp lines 27-195)

The writer emits one line per cone; the reader is a line-oriented scanner
using `std::string::find` and `std::stoi`.  Strings are modelled as lists
of characters and a file as its list of lines (the writer terminates every
line with a newline and writes none elsewhere, so the split is exact).
The search patterns are nonempty literals, so `strFind` needs no empty
pattern case. -/

/-- The output record shape (`ConeDetectionResult` of pipeline.hpp). -/
structure ConeDetectionResult where
  orangeCones : List Cone
  blueCones : List Cone
  yellowCones : List Cone
deriving DecidableEq

/-- `std::string::find` for a nonempty pattern: index of the first
occurrence, `none` for `npos`. -/
def strFind (pat : Chars) : Chars → Option ℕ
  | [] => none
  | c :: rest =>
    if pat.isPrefixOf (c :: rest) then some 0 else (strFind pat rest).map (· + 1)

/-- Decimal digit value of a character. -/
def digitVal (c : Char) : Option ℕ :=
  if c = '0' then some 0 else if c = '1' then some 1 else if c = '2' then some 2
  else if c = '3' then some 3 else if c = '4' then some 4 else if c = '5' then some 5
  else if c = '6' then some 6 else if c = '7' then some 7 else if c = '8' then some 8
  else if c = '9' then some 9 else none

/-- Is the character a decimal digit? -/
def isDigitCh (c : Char) : Bool := (digitVal c).isSome

/-- The character of a digit (only applied to values below ten). -/
def digitChar : ℕ → Char
  | 0 => '0'
  | 1 => '1'
  | 2 => '2'
  | 3 => '3'
  | 4 => '4'
  | 5 => '5'
  | 6 => '6'
  | 7 => '7'
  | 8 => '8'
  | 9 => '9'
  | _ => '*'

/-- Decimal digits of a natural number, most significant first; the fuel
makes the recursion structural and any fuel above the value suffices. -/
def natToCharsF : ℕ → ℕ → Chars
  | 0, _ => []
  | fuel + 1, n =>
    if n < 10 then [digitChar n] else natToCharsF fuel (n / 10) ++ [digitChar (n % 10)]

/-- Decimal digits of a natural number (`operator<<` on a nonnegative). -/
def natToChars (n : ℕ) : Chars := natToCharsF (n + 1) n

/-- `operator<<` for a C++ int: minus sign followed by the digits of the
absolute value, or just the digits. -/
def intToChars (i : ℤ) : Chars :=
  if i < 0 then '-' :: natToChars i.natAbs else natToChars i.toNat

/-- The whitespace characters `std::isspace` accepts in the default
locale. -/
def isSpaceCh (c : Char) : Bool :=
  c = ' ' || c = '\t' || c = '\n' || c = '\x0b' || c = '\x0c' || c = '\r'

/-- Digit accumulation of `std::stoi`: consume leading digits into the
accumulator and return it with the unconsumed remainder. -/
def parseDigitsAcc (acc : ℕ) : Chars → ℕ × Chars
  | [] => (acc, [])
  | c :: cs =>
    match digitVal c with
    | some d => parseDigitsAcc (acc * 10 + d) cs
    | none => (acc, c :: cs)

/-- `std::stoi`: skip leading whitespace, accept an optional sign, then
require at least one digit (otherwise it throws, modelled as `none`) and
convert the longest digit run. -/
def stoi (s : Chars) : Option ℤ :=
  match s.dropWhile isSpaceCh with
  | [] => none
  | c :: rest =>
    if c = '-' then
      match rest with
      | d :: _ => if isDigitCh d then some (-((parseDigitsAcc 0 rest).1 : ℤ)) else none
      | [] => none
    else if c = '+' then
      match rest with
      | d :: _ => if isDigitCh d then some ((parseDigitsAcc 0 rest).1 : ℤ) else none
      | [] => none
    else if isDigitCh c then some ((parseDigitsAcc 0 (c :: rest)).1 : ℤ) else none

/-- The four spaces and opening brace that begin every cone line. -/
def tplLineStart : Chars := [' ', ' ', ' ', ' ', '\x7b']

/-- The writer's `"x": ` key (the trailing space included, as the reader's
`line.find` patterns expect). -/
def keyX : Chars := ['"', 'x', '"', ':', ' ']

/-- The `"y": ` key. -/
def keyY : Chars := ['"', 'y', '"', ':', ' ']

/-- The `"bbox_x": ` key. -/
def keyBX : Chars := ['"', 'b', 'b', 'o', 'x', '_', 'x', '"', ':', ' ']

/-- The `"bbox_y": ` key. -/
def keyBY : Chars := ['"', 'b', 'b', 'o', 'x', '_', 'y', '"', ':', ' ']

/-- The `"bbox_width": ` key. -/
def keyBW : Chars := ['"', 'b', 'b', 'o', 'x', '_', 'w', 'i', 'd', 't', 'h', '"', ':', ' ']

/-- The `"bbox_height": ` key. -/
def keyBH : Chars :=
  ['"', 'b', 'b', 'o', 'x', '_', 'h', 'e', 'i', 'g', 'h', 't', '"', ':', ' ']

/-- The `", "` separator between fields. -/
def sepCS : Chars := [',', ' ']

/-- The reader's cone-line detector pattern `"x":` (no trailing space). -/
def patX4 : Chars := ['"', 'x', '"', ':']

/-- The reader's section pattern for the orange list. -/
def patOrange : Chars := ['"', 'o', 'r', 'a', 'n', 'g', 'e', 'C', 'o', 'n', 'e', 's', '"']

/-- The reader's section pattern for the blue list. -/
def patBlue : Chars := ['"', 'b', 'l', 'u', 'e', 'C', 'o', 'n', 'e', 's', '"']

/-- The reader's section pattern for the yellow list. -/
def patYellow : Chars := ['"', 'y', 'e', 'l', 'l', 'o', 'w', 'C', 'o', 'n', 'e', 's', '"']

/-- The closing brace of a cone line, with the separating comma on every
line but the last of a list. -/
def lineEnd (withComma : Bool) : Chars := '\x7d' :: (if withComma then [','] else [])

/-- One cone line as the writer emits it (pipeline.cpp lines 43-53). -/
def formatConeLine (c : Cone) (withComma : Bool) : Chars :=
  tplLineStart ++ (keyX ++ (intToChars c.center.x ++ (sepCS ++ (keyY ++
    (intToChars c.center.y ++ (sepCS ++ (keyBX ++ (intToChars c.boundingBox.x ++
    (sepCS ++ (keyBY ++ (intToChars c.boundingBox.y ++ (sepCS ++ (keyBW ++
    (intToChars c.boundingBox.width ++ (sepCS ++ (keyBH ++
    (intToChars c.boundingBox.height ++ lineEnd withComma)))))))))))))))))

/-- The lines of one cone list: every line but the last carries the
trailing comma (`if (i < size - 1)` in the writer). -/
def coneLines : List Cone → List Chars
  | [] => []
  | c :: rest => formatConeLine c (!rest.isEmpty) :: coneLines rest

/-- The opening of a named cone array: two spaces, the quoted name, colon,
space, opening bracket. -/
def headerLine (pat : Chars) : Chars := ' ' :: ' ' :: (pat ++ [':', ' ', '['])

/-- The `  ],` line closing the first two arrays. -/
def closerComma : Chars := [' ', ' ', ']', ',']

/-- The `  ]` line closing the last array. -/
def closerPlain : Chars := [' ', ' ', ']']

/-- `saveConeDetectionToJson` as the list of lines it writes. -/
def saveConeDetectionToJson (r : ConeDetectionResult) : List Chars :=
  [['\x7b']] ++ ([headerLine patOrange] ++ (coneLines r.orangeCones ++ ([closerComma] ++
    ([headerLine patBlue] ++ (coneLines r.blueCones ++ ([closerComma] ++
    ([headerLine patYellow] ++ (coneLines r.yellowCones ++ ([closerPlain] ++
    [['\x7d']])))))))))

/-- One field extraction of the reader: if the key is absent the field
keeps its zero initialisation; if it is present, `stoi` runs on the
substring after the key (its `none` is the exception `std::stoi` throws on
a non-numeric tail, which would propagate out of the loader). -/
def readFieldD (line pat : Chars) : Option ℤ :=
  match strFind pat line with
  | none => some 0
  | some pos => stoi (line.drop (pos + pat.length))

/-- The cone-line parser of the reader (pipeline.cpp lines 131-184):
extract the six fields in source order into a zero-initialised cone. -/
def parseConeLine (line : Chars) : Option Cone := do
  let x ← readFieldD line keyX
  let y ← readFieldD line keyY
  let bx ← readFieldD line keyBX
  let bby ← readFieldD line keyBY
  let bw ← readFieldD line keyBW
  let bh ← readFieldD line keyBH
  return ⟨⟨bx, bby, bw, bh⟩, ⟨x, y⟩⟩

/-- Which cone list `currentCones` points at. -/
inductive ConeColorSel where
  | orange
  | blue
  | yellow
deriving DecidableEq

/-- `currentCones->push_back(cone)`. -/
def applyCone (r : ConeDetectionResult) : ConeColorSel → Cone → ConeDetectionResult
  | .orange, c => { r with orangeCones := r.orangeCones ++ [c] }
  | .blue, c => { r with blueCones := r.blueCones ++ [c] }
  | .yellow, c => { r with yellowCones := r.yellowCones ++ [c] }

/-- One `getline` iteration of the reader: section headers switch the
current list; otherwise, with a current list set, a line containing
`"x":` is parsed and appended (a `stoi` exception aborts the whole load);
all other lines are ignored. -/
def readLine (st : Option ConeColorSel × ConeDetectionResult) (line : Chars) :
    Option (Option ConeColorSel × ConeDetectionResult) :=
  if (strFind patOrange line).isSome then some (some .orange, st.2)
  else if (strFind patBlue line).isSome then some (some .blue, st.2)
  else if (strFind patYellow line).isSome then some (some .yellow, st.2)
  else
    match st.1 with
    | some sel =>
      if (strFind patX4 line).isSome then
        match parseConeLine line with
        | some c => some (some sel, applyCone st.2 sel c)
        | none => none
      else some st
    | none => some st

/-- `loadConeDetectionFromJson` over the file's lines: scan each line with
no current list initially, starting from an empty result. -/
def loadConeDetectionFromJson (lines : List Chars) : Option ConeDetectionResult :=
  (lines.foldlM readLine (none, ⟨[], [], []⟩)).map Prod.snd

lemma isPrefixOf_append_self (l t : Chars) : l.isPrefixOf (l ++ t) = true := by
  induction l with
  | nil => simp [List.isPrefixOf]
  | cons c cs ih => simp [List.isPrefixOf, ih]

lemma strFind_of_isPrefixOf (pc : Char) (pr s : Chars)
    (h : (pc :: pr).isPrefixOf s = true) : strFind (pc :: pr) s = some 0 := by
  cases s with
  | nil => exact absurd h (by simp [List.isPrefixOf])
  | cons c cs => simp [strFind, h]

lemma strFind_self_append (pat t : Chars) (hne : pat ≠ []) :
    strFind pat (pat ++ t) = some 0 := by
  cases pat with
  | nil => exact absurd rfl hne
  | cons pc pr => exact strFind_of_isPrefixOf pc pr _ (isPrefixOf_append_self _ _)

/-- Does the pattern provably mismatch the text within the text's length? -/
def mismatchIn : Chars → Chars → Bool
  | [], _ => false
  | _ :: _, [] => false
  | p :: ps, c :: cs => if p == c then mismatchIn ps cs else true

lemma isPrefixOf_append_eq_false (pat t s : Chars) (h : mismatchIn pat t = true) :
    pat.isPrefixOf (t ++ s) = false := by
  induction pat generalizing t with
  | nil => exact absurd h (by simp [mismatchIn])
  | cons p ps ih =>
    cases t with
    | nil => exact absurd h (by simp [mismatchIn])
    | cons c cs =>
      rw [mismatchIn] at h
      by_cases hpc : (p == c) = true
      · rw [if_pos hpc] at h
        simp only [List.cons_append, List.isPrefixOf, hpc, Bool.true_and]
        exact ih cs h
      · simp only [List.cons_append, List.isPrefixOf, Bool.and_eq_false_iff]
        exact Or.inl (by simpa using hpc)

/-- No occurrence of the pattern begins anywhere inside the text (all
occurrences of the pattern in `t ++ s` begin inside `s`). -/
def noMatchIn (pat : Chars) : Chars → Bool
  | [] => true
  | t@(_ :: rest) => mismatchIn pat t && noMatchIn pat rest

lemma strFind_append_shift (pat t s : Chars) (h : noMatchIn pat t = true) :
    strFind pat (t ++ s) = (strFind pat s).map (· + t.length) := by
  induction t with
  | nil =>
    cases hf : strFind pat s <;> simp [hf]
  | cons c cs ih =>
    rw [noMatchIn, Bool.and_eq_true] at h
    have hpre := isPrefixOf_append_eq_false pat (c :: cs) s h.1
    rw [List.cons_append] at hpre ⊢
    rw [strFind, if_neg (by simp [hpre]), ih h.2]
    cases hf : strFind pat s <;> simp [hf, List.length_cons]
    omega

lemma noMatchIn_of_no_quote (pat : Chars) (hq : pat.head? = some '"') (t : Chars)
    (ht : '"' ∉ t) : noMatchIn pat t = true := by
  induction t with
  | nil => rfl
  | cons c cs ih =>
    rw [noMatchIn, Bool.and_eq_true]
    have hc : c ≠ '"' := fun e => ht (e ▸ List.mem_cons_self c cs)
    refine ⟨?_, ih (fun hm => ht (List.mem_cons_of_mem _ hm))⟩
    cases pat with
    | nil => exact absurd hq (by simp)
    | cons p ps =>
      have hp : p = '"' := by simpa using hq
      rw [mismatchIn, if_neg (by simp [hp]; exact fun e => hc e.symm)]

lemma digitVal_digitChar (d : ℕ) (h : d < 10) : digitVal (digitChar d) = some d := by
  interval_cases d <;> rfl

lemma isDigitCh_digitChar (d : ℕ) (h : d < 10) : isDigitCh (digitChar d) = true := by
  rw [isDigitCh, digitVal_digitChar d h]
  rfl

lemma natToCharsF_all_digit (fuel n : ℕ) (h : n < fuel) :
    ∀ c ∈ natToCharsF fuel n, isDigitCh c = true := by
  induction fuel generalizing n with
  | zero => omega
  | succ f ih =>
    intro c hc
    rw [natToCharsF] at hc
    by_cases h10 : n < 10
    · rw [if_pos h10] at hc
      rw [List.mem_singleton] at hc
      exact hc ▸ isDigitCh_digitChar n h10
    · rw [if_neg h10] at hc
      rcases List.mem_append.mp hc with h1 | h2
      · exact ih (n / 10) (by omega) c h1
      · rw [List.mem_singleton] at h2
        exact h2 ▸ isDigitCh_digitChar (n % 10) (Nat.mod_lt n (by omega))

lemma natToCharsF_ne_nil (fuel n : ℕ) (h : n < fuel) : natToCharsF fuel n ≠ [] := by
  cases fuel with
  | zero => omega
  | succ f =>
    rw [natToCharsF]
    by_cases h10 : n < 10
    · simp [h10]
    · rw [if_neg h10]
      simp

lemma natToChars_all_digit (n : ℕ) : ∀ c ∈ natToChars n, isDigitCh c = true :=
  natToCharsF_all_digit (n + 1) n (Nat.lt_succ_self n)

lemma natToChars_ne_nil (n : ℕ) : natToChars n ≠ [] :=
  natToCharsF_ne_nil (n + 1) n (Nat.lt_succ_self n)

lemma quote_not_mem_intToChars (i : ℤ) : '"' ∉ intToChars i := by
  intro hm
  rw [intToChars] at hm
  split_ifs at hm
  · rcases List.mem_cons.mp hm with h1 | h2
    · exact absurd h1 (by decide)
    · exact absurd (natToChars_all_digit _ _ h2) (by decide)
  · exact absurd (natToChars_all_digit _ _ hm) (by decide)

lemma parseDigitsAcc_stop (acc : ℕ) (rest : Chars)
    (h : ∀ c, rest.head? = some c → isDigitCh c = false) :
    parseDigitsAcc acc rest = (acc, rest) := by
  cases rest with
  | nil => rfl
  | cons c cs =>
    have hd : digitVal c = none := by
      have := h c rfl
      rw [isDigitCh] at this
      exact Option.not_isSome_iff_eq_none.mp (by simp [this])
    rw [parseDigitsAcc, hd]

lemma parseDigitsAcc_natToCharsF (fuel : ℕ) :
    ∀ n acc rest, n < fuel →
      parseDigitsAcc acc (natToCharsF fuel n ++ rest) =
        parseDigitsAcc (acc * 10 ^ (natToCharsF fuel n).length + n) rest := by
  induction fuel with
  | zero => omega
  | succ f ih =>
    intro n acc rest h
    rw [natToCharsF]
    by_cases h10 : n < 10
    · rw [if_pos h10]
      simp only [List.singleton_append, List.length_singleton, pow_one]
      rw [parseDigitsAcc, digitVal_digitChar n h10]
    · rw [if_neg h10]
      have hrec : n / 10 < f := by
        have h1 : n / 10 < n := Nat.div_lt_self (by omega) (by omega)
        omega
      rw [List.append_assoc, List.singleton_append, ih (n / 10) acc _ hrec]
      rw [parseDigitsAcc, digitVal_digitChar (n % 10) (Nat.mod_lt n (by omega))]
      dsimp only
      have harith :
          (acc * 10 ^ (natToCharsF f (n / 10)).length + n / 10) * 10 + n % 10 =
          acc * 10 ^ (natToCharsF f (n / 10) ++ [digitChar (n % 10)]).length + n := by
        rw [List.length_append, List.length_singleton, pow_succ]
        have := Nat.div_add_mod n 10
        ring_nf
        omega
      rw [harith]

lemma parseDigitsAcc_natToChars (n : ℕ) (rest : Chars)
    (h : ∀ c, rest.head? = some c → isDigitCh c = false) :
    parseDigitsAcc 0 (natToChars n ++ rest) = (n, rest) := by
  rw [natToChars, parseDigitsAcc_natToCharsF (n + 1) n 0 rest (Nat.lt_succ_self n),
    parseDigitsAcc_stop _ _ h]
  norm_num

lemma isDigitCh_cases (c : Char) (h : isDigitCh c = true) :
    c = '0' ∨ c = '1' ∨ c = '2' ∨ c = '3' ∨ c = '4' ∨ c = '5' ∨ c = '6' ∨ c = '7' ∨
      c = '8' ∨ c = '9' := by
  rw [isDigitCh, digitVal] at h
  split_ifs at h with h0 h1 h2 h3 h4 h5 h6 h7 h8 h9
  · exact Or.inl h0
  · exact Or.inr (Or.inl h1)
  · exact Or.inr (Or.inr (Or.inl h2))
  · exact Or.inr (Or.inr (Or.inr (Or.inl h3)))
  · exact Or.inr (Or.inr (Or.inr (Or.inr (Or.inl h4))))
  · exact Or.inr (Or.inr (Or.inr (Or.inr (Or.inr (Or.inl h5)))))
  · exact Or.inr (Or.inr (Or.inr (Or.inr (Or.inr (Or.inr (Or.inl h6))))))
  · exact Or.inr (Or.inr (Or.inr (Or.inr (Or.inr (Or.inr (Or.inr (Or.inl h7)))))))
  · exact Or.inr (Or.inr (Or.inr (Or.inr (Or.inr (Or.inr (Or.inr (Or.inr (Or.inl h8))))))))
  · exact Or.inr (Or.inr (Or.inr (Or.inr (Or.inr (Or.inr (Or.inr (Or.inr (Or.inr h9))))))))
  · exact absurd h (by simp)

lemma stoi_digit_head (c : Char) (tail : Chars) (hc : isDigitCh c = true) :
    stoi (c :: tail) = some ((parseDigitsAcc 0 (c :: tail)).1 : ℤ) := by
  have hns : isSpaceCh c = false := by
    rcases isDigitCh_cases c hc with rfl | rfl | rfl | rfl | rfl | rfl | rfl | rfl | rfl | rfl <;>
      rfl
  have hne1 : ¬ (c = '-') := by
    rcases isDigitCh_cases c hc with rfl | rfl | rfl | rfl | rfl | rfl | rfl | rfl | rfl | rfl <;>
      decide
  have hne2 : ¬ (c = '+') := by
    rcases isDigitCh_cases c hc with rfl | rfl | rfl | rfl | rfl | rfl | rfl | rfl | rfl | rfl <;>
      decide
  rw [stoi, List.dropWhile_cons, if_neg (by simp [hns])]
  dsimp only
  rw [if_neg hne1, if_neg hne2, if_pos hc]

lemma stoi_minus_digit (c : Char) (tail : Chars) (hc : isDigitCh c = true) :
    stoi ('-' :: (c :: tail)) = some (-((parseDigitsAcc 0 (c :: tail)).1 : ℤ)) := by
  rw [stoi, List.dropWhile_cons, if_neg (by decide)]
  dsimp only
  rw [if_pos rfl, if_pos hc]

lemma stoi_intToChars (i : ℤ) (rest : Chars)
    (h : ∀ c, rest.head? = some c → isDigitCh c = false) :
    stoi (intToChars i ++ rest) = some i := by
  rcases lt_or_le i 0 with hi | hi
  · rw [intToChars, if_pos hi, List.cons_append]
    obtain ⟨c, cs, hcons⟩ : ∃ c cs, natToChars i.natAbs = c :: cs := by
      cases hn : natToChars i.natAbs with
      | nil => exact absurd hn (natToChars_ne_nil _)
      | cons a b => exact ⟨a, b, rfl⟩
    have hc : isDigitCh c = true := natToChars_all_digit _ c (hcons ▸ List.mem_cons_self c cs)
    have hp := parseDigitsAcc_natToChars i.natAbs rest h
    rw [hcons, List.cons_append] at hp
    rw [hcons, List.cons_append, stoi_minus_digit c (cs ++ rest) hc, hp]
    have habs : ((i.natAbs : ℤ)) = -i := Int.ofNat_natAbs_of_nonpos (le_of_lt hi)
    simp only [habs, neg_neg]
  · rw [intToChars, if_neg (not_lt.mpr hi)]
    obtain ⟨c, cs, hcons⟩ : ∃ c cs, natToChars i.toNat = c :: cs := by
      cases hn : natToChars i.toNat with
      | nil => exact absurd hn (natToChars_ne_nil _)
      | cons a b => exact ⟨a, b, rfl⟩
    have hc : isDigitCh c = true := natToChars_all_digit _ c (hcons ▸ List.mem_cons_self c cs)
    have hp := parseDigitsAcc_natToChars i.toNat rest h
    rw [hcons, List.cons_append] at hp
    rw [hcons, List.cons_append, stoi_digit_head c (cs ++ rest) hc, hp]
    simp only [Int.toNat_of_nonneg hi]

lemma readFieldD_append_skip (pat t line' : Chars) (hnm : noMatchIn pat t = true) :
    readFieldD (t ++ line') pat = readFieldD line' pat := by
  rw [readFieldD, readFieldD, strFind_append_shift pat t line' hnm]
  cases hf : strFind pat line' with
  | none => simp
  | some k =>
    dsimp only [Option.map]
    have hd : (t ++ line').drop (k + t.length + pat.length) = line'.drop (k + pat.length) := by
      rw [show k + t.length + pat.length = t.length + (k + pat.length) by omega]
      exact List.drop_append _
    rw [hd]

lemma readFieldD_here (pat rest : Chars) (hne : pat ≠ []) :
    readFieldD (pat ++ rest) pat = stoi rest := by
  rw [readFieldD, strFind_self_append pat rest hne]
  dsimp only
  have hdrop : (pat ++ rest).drop (0 + pat.length) = rest := by
    rw [Nat.zero_add]
    exact List.drop_left _ _
  rw [hdrop]

lemma strFind_append_none (pat t s : Chars) (hnm : noMatchIn pat t = true)
    (hs : strFind pat s = none) : strFind pat (t ++ s) = none := by
  rw [strFind_append_shift pat t s hnm, hs]
  rfl

lemma strFind_append_isSome (pat t s : Chars) (hnm : noMatchIn pat t = true) :
    (strFind pat (t ++ s)).isSome = (strFind pat s).isSome := by
  rw [strFind_append_shift pat t s hnm]
  exact Option.isSome_map

lemma noMatchIn_intToChars (pat : Chars) (hq : pat.head? = some '"') (i : ℤ) :
    noMatchIn pat (intToChars i) = true :=
  noMatchIn_of_no_quote pat hq _ (quote_not_mem_intToChars i)

lemma head_not_digit_sepCS (X : Chars) :
    ∀ ch, (sepCS ++ X).head? = some ch → isDigitCh ch = false := by
  intro ch hch
  have : ch = ',' := by
    rw [show sepCS ++ X = ',' :: (' ' :: X) from rfl] at hch
    exact (Option.some.inj hch).symm
  rw [this]
  rfl

lemma head_not_digit_lineEnd (wc : Bool) :
    ∀ ch, (lineEnd wc).head? = some ch → isDigitCh ch = false := by
  intro ch hch
  have : ch = '\x7d' := by
    rw [show lineEnd wc = '\x7d' :: (if wc then [','] else []) from rfl] at hch
    exact (Option.some.inj hch).symm
  rw [this]
  rfl

lemma readField_x (c : Cone) (wc : Bool) :
    readFieldD (formatConeLine c wc) keyX = some c.center.x := by
  rw [formatConeLine,
    readFieldD_append_skip _ tplLineStart _ (by decide),
    readFieldD_here keyX _ (by decide)]
  exact stoi_intToChars _ _ (head_not_digit_sepCS _)

lemma readField_y (c : Cone) (wc : Bool) :
    readFieldD (formatConeLine c wc) keyY = some c.center.y := by
  rw [formatConeLine,
    readFieldD_append_skip _ tplLineStart _ (by decide),
    readFieldD_append_skip _ keyX _ (by decide),
    readFieldD_append_skip _ _ _ (noMatchIn_intToChars keyY rfl c.center.x),
    readFieldD_append_skip _ sepCS _ (by decide),
    readFieldD_here keyY _ (by decide)]
  exact stoi_intToChars _ _ (head_not_digit_sepCS _)

lemma readField_bx (c : Cone) (wc : Bool) :
    readFieldD (formatConeLine c wc) keyBX = some c.boundingBox.x := by
  rw [formatConeLine,
    readFieldD_append_skip _ tplLineStart _ (by decide),
    readFieldD_append_skip _ keyX _ (by decide),
    readFieldD_append_skip _ _ _ (noMatchIn_intToChars keyBX rfl c.center.x),
    readFieldD_append_skip _ sepCS _ (by decide),
    readFieldD_append_skip _ keyY _ (by decide),
    readFieldD_append_skip _ _ _ (noMatchIn_intToChars keyBX rfl c.center.y),
    readFieldD_append_skip _ sepCS _ (by decide),
    readFieldD_here keyBX _ (by decide)]
  exact stoi_intToChars _ _ (head_not_digit_sepCS _)

lemma readField_by (c : Cone) (wc : Bool) :
    readFieldD (formatConeLine c wc) keyBY = some c.boundingBox.y := by
  rw [formatConeLine,
    readFieldD_append_skip _ tplLineStart _ (by decide),
    readFieldD_append_skip _ keyX _ (by decide),
    readFieldD_append_skip _ _ _ (noMatchIn_intToChars keyBY rfl c.center.x),
    readFieldD_append_skip _ sepCS _ (by decide),
    readFieldD_append_skip _ keyY _ (by decide),
    readFieldD_append_skip _ _ _ (noMatchIn_intToChars keyBY rfl c.center.y),
    readFieldD_append_skip _ sepCS _ (by decide),
    readFieldD_append_skip _ keyBX _ (by decide),
    readFieldD_append_skip _ _ _ (noMatchIn_intToChars keyBY rfl c.boundingBox.x),
    readFieldD_append_skip _ sepCS _ (by decide),
    readFieldD_here keyBY _ (by decide)]
  exact stoi_intToChars _ _ (head_not_digit_sepCS _)

lemma readField_bw (c : Cone) (wc : Bool) :
    readFieldD (formatConeLine c wc) keyBW = some c.boundingBox.width := by
  rw [formatConeLine,
    readFieldD_append_skip _ tplLineStart _ (by decide),
    readFieldD_append_skip _ keyX _ (by decide),
    readFieldD_append_skip _ _ _ (noMatchIn_intToChars keyBW rfl c.center.x),
    readFieldD_append_skip _ sepCS _ (by decide),
    readFieldD_append_skip _ keyY _ (by decide),
    readFieldD_append_skip _ _ _ (noMatchIn_intToChars keyBW rfl c.center.y),
    readFieldD_append_skip _ sepCS _ (by decide),
    readFieldD_append_skip _ keyBX _ (by decide),
    readFieldD_append_skip _ _ _ (noMatchIn_intToChars keyBW rfl c.boundingBox.x),
    readFieldD_append_skip _ sepCS _ (by decide),
    readFieldD_append_skip _ keyBY _ (by decide),
    readFieldD_append_skip _ _ _ (noMatchIn_intToChars keyBW rfl c.boundingBox.y),
    readFieldD_append_skip _ sepCS _ (by decide),
    readFieldD_here keyBW _ (by decide)]
  exact stoi_intToChars _ _ (head_not_digit_sepCS _)

lemma readField_bh (c : Cone) (wc : Bool) :
    readFieldD (formatConeLine c wc) keyBH = some c.boundingBox.height := by
  rw [formatConeLine,
    readFieldD_append_skip _ tplLineStart _ (by decide),
    readFieldD_append_skip _ keyX _ (by decide),
    readFieldD_append_skip _ _ _ (noMatchIn_intToChars keyBH rfl c.center.x),
    readFieldD_append_skip _ sepCS _ (by decide),
    readFieldD_append_skip _ keyY _ (by decide),
    readFieldD_append_skip _ _ _ (noMatchIn_intToChars keyBH rfl c.center.y),
    readFieldD_append_skip _ sepCS _ (by decide),
    readFieldD_append_skip _ keyBX _ (by decide),
    readFieldD_append_skip _ _ _ (noMatchIn_intToChars keyBH rfl c.boundingBox.x),
    readFieldD_append_skip _ sepCS _ (by decide),
    readFieldD_append_skip _ keyBY _ (by decide),
    readFieldD_append_skip _ _ _ (noMatchIn_intToChars keyBH rfl c.boundingBox.y),
    readFieldD_append_skip _ sepCS _ (by decide),
    readFieldD_append_skip _ keyBW _ (by decide),
    readFieldD_append_skip _ _ _ (noMatchIn_intToChars keyBH rfl c.boundingBox.width),
    readFieldD_append_skip _ sepCS _ (by decide),
    readFieldD_here keyBH _ (by decide)]
  exact stoi_intToChars _ _ (head_not_digit_lineEnd wc)

lemma parseConeLine_formatConeLine (c : Cone) (wc : Bool) :
    parseConeLine (formatConeLine c wc) = some c := by
  simp only [parseConeLine, readField_x, readField_y, readField_bx, readField_by,
    readField_bw, readField_bh, Option.bind_eq_bind, Option.some_bind]
  rfl

lemma strFind_formatConeLine_none (pat : Chars) (c : Cone) (wc : Bool)
    (hq : pat.head? = some '"')
    (h0 : noMatchIn pat tplLineStart = true) (h1 : noMatchIn pat keyX = true)
    (h2 : noMatchIn pat sepCS = true) (h3 : noMatchIn pat keyY = true)
    (h4 : noMatchIn pat keyBX = true) (h5 : noMatchIn pat keyBY = true)
    (h6 : noMatchIn pat keyBW = true) (h7 : noMatchIn pat keyBH = true)
    (hend : strFind pat (lineEnd wc) = none) :
    strFind pat (formatConeLine c wc) = none := by
  have hD : ∀ i : ℤ, noMatchIn pat (intToChars i) = true := noMatchIn_intToChars pat hq
  rw [formatConeLine]
  exact strFind_append_none _ _ _ h0 (strFind_append_none _ _ _ h1
    (strFind_append_none _ _ _ (hD _) (strFind_append_none _ _ _ h2
    (strFind_append_none _ _ _ h3 (strFind_append_none _ _ _ (hD _)
    (strFind_append_none _ _ _ h2 (strFind_append_none _ _ _ h4
    (strFind_append_none _ _ _ (hD _) (strFind_append_none _ _ _ h2
    (strFind_append_none _ _ _ h5 (strFind_append_none _ _ _ (hD _)
    (strFind_append_none _ _ _ h2 (strFind_append_none _ _ _ h6
    (strFind_append_none _ _ _ (hD _) (strFind_append_none _ _ _ h2
    (strFind_append_none _ _ _ h7 (strFind_append_none _ _ _ (hD _) hend)))))))))))))))))

lemma keyX_decomp (T : Chars) : keyX ++ T = patX4 ++ (' ' :: T) := rfl

lemma strFind_patX4_formatConeLine (c : Cone) (wc : Bool) :
    (strFind patX4 (formatConeLine c wc)).isSome = true := by
  rw [formatConeLine, strFind_append_isSome _ _ _ (by decide), keyX_decomp,
    strFind_self_append patX4 _ (by decide)]
  rfl

lemma lineEnd_no_sect (pat : Chars) (hq : pat.head? = some '"') (wc : Bool) :
    strFind pat (lineEnd wc) = none := by
  cases wc
  · rw [show lineEnd false = ['\x7d'] from rfl]
    cases pat with
    | nil => exact absurd hq (by simp)
    | cons p ps =>
      have : p = '"' := Option.some.inj hq
      subst this
      rw [strFind]
      simp [List.isPrefixOf, strFind]
  · rw [show lineEnd true = ['\x7d', ','] from rfl]
    cases pat with
    | nil => exact absurd hq (by simp)
    | cons p ps =>
      have : p = '"' := Option.some.inj hq
      subst this
      rw [strFind]
      simp [List.isPrefixOf, strFind]

lemma strFind_patOrange_coneLine (c : Cone) (wc : Bool) :
    strFind patOrange (formatConeLine c wc) = none :=
  strFind_formatConeLine_none patOrange c wc rfl (by decide) (by decide) (by decide)
    (by decide) (by decide) (by decide) (by decide) (by decide)
    (lineEnd_no_sect patOrange rfl wc)

lemma strFind_patBlue_coneLine (c : Cone) (wc : Bool) :
    strFind patBlue (formatConeLine c wc) = none :=
  strFind_formatConeLine_none patBlue c wc rfl (by decide) (by decide) (by decide)
    (by decide) (by decide) (by decide) (by decide) (by decide)
    (lineEnd_no_sect patBlue rfl wc)

lemma strFind_patYellow_coneLine (c : Cone) (wc : Bool) :
    strFind patYellow (formatConeLine c wc) = none :=
  strFind_formatConeLine_none patYellow c wc rfl (by decide) (by decide) (by decide)
    (by decide) (by decide) (by decide) (by decide) (by decide)
    (lineEnd_no_sect patYellow rfl wc)

lemma readLine_coneLine (sel : ConeColorSel) (r : ConeDetectionResult) (c : Cone)
    (wc : Bool) :
    readLine (some sel, r) (formatConeLine c wc) = some (some sel, applyCone r sel c) := by
  rw [readLine,
    if_neg (by rw [strFind_patOrange_coneLine]; simp),
    if_neg (by rw [strFind_patBlue_coneLine]; simp),
    if_neg (by rw [strFind_patYellow_coneLine]; simp)]
  dsimp only
  rw [if_pos (strFind_patX4_formatConeLine c wc), parseConeLine_formatConeLine]

lemma readLine_skip (cur : Option ConeColorSel) (r : ConeDetectionResult) (line : Chars)
    (ho : strFind patOrange line = none) (hb : strFind patBlue line = none)
    (hy : strFind patYellow line = none) (hx : strFind patX4 line = none) :
    readLine (cur, r) line = some (cur, r) := by
  rw [readLine, if_neg (by rw [ho]; simp), if_neg (by rw [hb]; simp),
    if_neg (by rw [hy]; simp)]
  cases cur with
  | none => rfl
  | some sel =>
    dsimp only
    rw [if_neg (by rw [hx]; simp)]

lemma readLine_header_orange (cur : Option ConeColorSel) (r : ConeDetectionResult) :
    readLine (cur, r) (headerLine patOrange) = some (some .orange, r) := by
  rw [readLine, if_pos (by decide)]

lemma readLine_header_blue (cur : Option ConeColorSel) (r : ConeDetectionResult) :
    readLine (cur, r) (headerLine patBlue) = some (some .blue, r) := by
  rw [readLine, if_neg (by decide), if_pos (by decide)]

lemma readLine_header_yellow (cur : Option ConeColorSel) (r : ConeDetectionResult) :
    readLine (cur, r) (headerLine patYellow) = some (some .yellow, r) := by
  rw [readLine, if_neg (by decide), if_neg (by decide), if_pos (by decide)]

def applyAll (r : ConeDetectionResult) (sel : ConeColorSel) (cs : List Cone) :
    ConeDetectionResult :=
  cs.foldl (fun r c => applyCone r sel c) r

lemma foldlM_readLine_coneLines (sel : ConeColorSel) (r : ConeDetectionResult)
    (cs : List Cone) :
    List.foldlM readLine (some sel, r) (coneLines cs) = some (some sel, applyAll r sel cs) := by
  induction cs generalizing r with
  | nil => rfl
  | cons c rest ih =>
    rw [coneLines, List.foldlM_cons, readLine_coneLine]
    simp only [Option.bind_eq_bind, Option.some_bind]
    exact ih (applyCone r sel c)

lemma applyAll_orange (r : ConeDetectionResult) (cs : List Cone) :
    applyAll r .orange cs = { r with orangeCones := r.orangeCones ++ cs } := by
  induction cs generalizing r with
  | nil => simp [applyAll]
  | cons c rest ih =>
    rw [show applyAll r ConeColorSel.orange (c :: rest)
        = applyAll (applyCone r .orange c) .orange rest from rfl, ih]
    simp [applyCone]

lemma applyAll_blue (r : ConeDetectionResult) (cs : List Cone) :
    applyAll r .blue cs = { r with blueCones := r.blueCones ++ cs } := by
  induction cs generalizing r with
  | nil => simp [applyAll]
  | cons c rest ih =>
    rw [show applyAll r ConeColorSel.blue (c :: rest)
        = applyAll (applyCone r .blue c) .blue rest from rfl, ih]
    simp [applyCone]

lemma applyAll_yellow (r : ConeDetectionResult) (cs : List Cone) :
    applyAll r .yellow cs = { r with yellowCones := r.yellowCones ++ cs } := by
  induction cs generalizing r with
  | nil => simp [applyAll]
  | cons c rest ih =>
    rw [show applyAll r ConeColorSel.yellow (c :: rest)
        = applyAll (applyCone r .yellow c) .yellow rest from rfl, ih]
    simp [applyCone]

/-- C8: writing a ConeDetectionResult with `saveConeDetectionToJson` and
reading the lines back with `loadConeDetectionFromJson` succeeds and
reproduces every cone of every colour class in order: the loader finds
each section header, parses each cone line by locating the six quoted
keys and running `stoi` after each, and appends the cones to the list
selected by the last header seen. -/
theorem saveConeDetectionToJson_roundTrip (r : ConeDetectionResult) :
    loadConeDetectionFromJson (saveConeDetectionToJson r) = some r := by
  rw [loadConeDetectionFromJson, saveConeDetectionToJson]
  simp only [List.singleton_append]
  rw [List.foldlM_cons, readLine_skip _ _ _ (by decide) (by decide) (by decide) (by decide)]
  simp only [Option.bind_eq_bind, Option.some_bind]
  rw [List.foldlM_cons, readLine_header_orange]
  simp only [Option.bind_eq_bind, Option.some_bind]
  rw [List.foldlM_append, foldlM_readLine_coneLines]
  simp only [Option.bind_eq_bind, Option.some_bind]
  rw [List.foldlM_cons, readLine_skip _ _ _ (by decide) (by decide) (by decide) (by decide)]
  simp only [Option.bind_eq_bind, Option.some_bind]
  rw [List.foldlM_cons, readLine_header_blue]
  simp only [Option.bind_eq_bind, Option.some_bind]
  rw [List.foldlM_append, foldlM_readLine_coneLines]
  simp only [Option.bind_eq_bind, Option.some_bind]
  rw [List.foldlM_cons, readLine_skip _ _ _ (by decide) (by decide) (by decide) (by decide)]
  simp only [Option.bind_eq_bind, Option.some_bind]
  rw [List.foldlM_cons, readLine_header_yellow]
  simp only [Option.bind_eq_bind, Option.some_bind]
  rw [List.foldlM_append, foldlM_readLine_coneLines]
  simp only [Option.bind_eq_bind, Option.some_bind]
  rw [List.foldlM_cons, readLine_skip _ _ _ (by decide) (by decide) (by decide) (by decide)]
  simp only [Option.bind_eq_bind, Option.some_bind]
  rw [List.foldlM_cons, readLine_skip _ _ _ (by decide) (by decide) (by decide) (by decide)]
  simp only [Option.bind_eq_bind, Option.some_bind]
  rw [applyAll_orange, applyAll_blue, applyAll_yellow]
  simp only [List.foldlM_nil, Option.map_some, List.nil_append]
  rfl
